import Mathlib

/-!
Verification of the `go-limit` in-process rate-limiting library.

The development shallowly embeds the three limiter strategies of the
library (sliding-window log `rollingWindow`, `tokenBucket`, `leakyBucket`)
together with their reservation objects.  Timestamps and durations are
modelled as `Int` (nanoseconds, as in Go's `time.Time`/`time.Duration`);
Go `int` fields are modelled as `Int`.  `time.Now()` becomes an explicit
`now : Int` argument threaded through every operation; the real clock is
monotone, which is captured where needed by a `clock` field recording the
largest time observed so far and a `clock ≤ now` hypothesis on steps.
Go's `sync.Mutex` serialises all state access, so each locked region is
modelled as one atomic state transition.

Division `/` on `Int` is Euclidean; Go's integer division truncates
toward zero.  Every division performed by the code has a non-negative
numerator (an elapsed time under a monotone clock) and the two
conventions agree there.

The `pendingReservations` Go map holding pointers to reservation objects
is modelled by giving each limiter a list of all reservation objects it
ever issued, each carrying an `inMap` flag for membership in the pending
map; `len(pendingReservations)` is the number of reservations whose
`inMap` flag is set.
-/

namespace GoLimit

/-- Error outcomes of `Reservation.Consume` across the three strategies. -/
inductive ConsumeErr where
  | alreadyConsumed
  | wasCanceled
  | expired
  | expiredWhileWaiting
deriving DecidableEq, Repr

/-- One reservation object: `expiresAt`, `consumed`, `canceled` are the Go
struct fields shared by all three reservation types; `inMap` records
membership of the object in the owning limiter's `pendingReservations` map. -/
structure ResState where
  expiresAt : Option Int
  consumed : Bool
  canceled : Bool
  inMap : Bool
deriving DecidableEq, Repr

/-- Default reservation used by `List.getD`; an out-of-range index never
occurs for real reservation objects. -/
def dRes : ResState := ⟨none, false, false, false⟩

/-- Models `r.expiresAt != nil && time.Now().After(*r.expiresAt)`:
`time.After` is a strict comparison. -/
def resExpired (r : ResState) (now : Int) : Bool :=
  match r.expiresAt with
  | some e => decide (e < now)
  | none => false

/-- Models `len(pendingReservations)`. -/
def pendingCount (l : List ResState) : Nat :=
  l.countP (fun r => r.inMap)

/-- Models `cleanupExpiredReservations` (identical in `rollingWindow`,
`tokenBucket` and `leakyBucket`): every pending reservation whose expiry
has passed is deleted from the pending map. -/
def cleanupRes (l : List ResState) (now : Int) : List ResState :=
  l.map (fun r => if r.inMap && resExpired r now then {r with inMap := false} else r)

/-- Models the reservation part of `Clear` (identical in all three
strategies): every reservation in the pending map gets `canceled = true`,
and the pending map is replaced by an empty one. -/
def cancelAllRes (l : List ResState) : List ResState :=
  l.map (fun r => if r.inMap then {r with canceled := true, inMap := false} else r)

theorem pendingCount_nil : pendingCount [] = 0 := rfl

theorem pendingCount_cons (r : ResState) (l : List ResState) :
    pendingCount (r :: l) = pendingCount l + (if r.inMap then 1 else 0) := by
  simp [pendingCount, List.countP_cons]

theorem pendingCount_append (l₁ l₂ : List ResState) :
    pendingCount (l₁ ++ l₂) = pendingCount l₁ + pendingCount l₂ := by
  simp [pendingCount, List.countP_append]

theorem pendingCount_cleanupRes_le (l : List ResState) (now : Int) :
    pendingCount (cleanupRes l now) ≤ pendingCount l := by
  induction l with
  | nil => simp [cleanupRes]
  | cons r l ih =>
      simp only [cleanupRes, List.map_cons] at *
      rw [pendingCount_cons, pendingCount_cons]
      by_cases h : (r.inMap && resExpired r now) = true
      · rw [if_pos h]
        have h0 : (if (({ r with inMap := false } : ResState)).inMap = true then (1 : Nat) else 0) = 0 := rfl
        rw [h0]
        omega
      · rw [if_neg h]
        omega

theorem pendingCount_cancelAllRes (l : List ResState) :
    pendingCount (cancelAllRes l) = 0 := by
  induction l with
  | nil => rfl
  | cons r l ih =>
      simp only [cancelAllRes, List.map_cons] at *
      rw [pendingCount_cons]
      split
      · simpa using ih
      · rename_i h
        simp only [Bool.not_eq_true] at h
        simp [h, ih]

theorem pendingCount_cleanup_cancelAllRes (l : List ResState) (now : Int) :
    pendingCount (cleanupRes (cancelAllRes l) now) = 0 :=
  Nat.le_zero.mp (pendingCount_cancelAllRes l ▸ pendingCount_cleanupRes_le (cancelAllRes l) now)

theorem getD_set_self (l : List ResState) (i : Nat) (a : ResState) (h : i < l.length) :
    (l.set i a).getD i dRes = a := by
  induction l generalizing i with
  | nil => simp at h
  | cons r l ih =>
      cases i with
      | zero => rfl
      | succ n =>
          simp only [List.set_cons_succ, List.getD_cons_succ]
          exact ih n (by simpa using h)

theorem getD_mem (l : List ResState) (i : Nat) (h : i < l.length) :
    l.getD i dRes ∈ l := by
  induction l generalizing i with
  | nil => simp at h
  | cons r l ih =>
      cases i with
      | zero => simp
      | succ n =>
          simp only [List.getD_cons_succ]
          exact List.mem_cons_of_mem _ (ih n (by simpa using h))

theorem pendingCount_pos_of_inMap (l : List ResState) (r : ResState)
    (hm : r ∈ l) (hi : r.inMap = true) : 1 ≤ pendingCount l := by
  have := List.countP_pos_iff (p := fun r : ResState => r.inMap) (l := l)
  exact this.mpr ⟨r, hm, by simp [hi]⟩

theorem pendingCount_set (l : List ResState) (i : Nat) (a : ResState) (h : i < l.length) :
    pendingCount (l.set i a) + (if (l.getD i dRes).inMap then 1 else 0)
      = pendingCount l + (if a.inMap then 1 else 0) := by
  induction l generalizing i with
  | nil => simp at h
  | cons r l ih =>
      cases i with
      | zero =>
          simp only [List.set_cons_zero, List.getD_cons_zero]
          rw [pendingCount_cons, pendingCount_cons]
          omega
      | succ n =>
          simp only [List.set_cons_succ, List.getD_cons_succ]
          rw [pendingCount_cons, pendingCount_cons]
          have := ih n (by simpa using h)
          omega

theorem pendingCount_set_notInMap_le (l : List ResState) (i : Nat) (a : ResState)
    (ha : a.inMap = false) : pendingCount (l.set i a) ≤ pendingCount l := by
  by_cases h : i < l.length
  · have hs := pendingCount_set l i a h
    simp only [ha] at hs
    have hf : (if false = true then (1 : Nat) else 0) = 0 := rfl
    rw [hf] at hs
    omega
  · rw [List.set_eq_of_length_le (by omega)]

/-- Models the body of `Reservation.Cancel` (identical in all three
reservation types): when the reservation is not consumed, set `canceled` and
delete it from the pending map. -/
def cancelResAt (l : List ResState) (i : Nat) : List ResState :=
  let r := l.getD i dRes
  if r.consumed then l
  else l.set i { r with canceled := true, inMap := false }

theorem cancelResAt_consumed (l : List ResState) (i : Nat)
    (hc : (l.getD i dRes).consumed = true) : cancelResAt l i = l := by
  unfold cancelResAt
  dsimp only
  rw [if_pos hc]

theorem cancelResAt_oob (l : List ResState) (i : Nat) (hle : l.length ≤ i) :
    cancelResAt l i = l := by
  unfold cancelResAt
  dsimp only
  split
  · rfl
  · exact List.set_eq_of_length_le hle

theorem cancelResAt_idem (l : List ResState) (i : Nat) :
    cancelResAt (cancelResAt l i) i = cancelResAt l i := by
  by_cases hc : (l.getD i dRes).consumed = true
  · rw [cancelResAt_consumed l i hc]
    exact cancelResAt_consumed l i hc
  · by_cases hl : i < l.length
    · have h1 : cancelResAt l i
          = l.set i { l.getD i dRes with canceled := true, inMap := false } := by
        unfold cancelResAt
        dsimp only
        rw [if_neg hc]
      rw [h1]
      unfold cancelResAt
      dsimp only
      rw [getD_set_self _ i _ hl]
      dsimp only
      rw [if_neg hc]
      rw [List.set_set]
    · have hle : l.length ≤ i := by omega
      rw [cancelResAt_oob l i hle]
      exact cancelResAt_oob l i hle

/-- Snapshot returned by `Stats()` (src: `Stats` struct). -/
structure Stats where
  allowedRequests : Int
  deniedRequests : Int
  nextAllowedTime : Int
deriving DecidableEq, Repr

/-- The `rollingWindow` limiter state (src/rolling_window.go).  `log` is the
`rollingWindow` slice of admission timestamps; `reservations` carries every
`rollingWindowReservation` object ever issued, `inMap` marking membership in
`pendingReservations`. -/
structure RollingWindow where
  maxEventCount : Int
  rateDuration : Int
  allowedEvents : Int
  deniedEvents : Int
  log : List Int
  reservations : List ResState
deriving DecidableEq, Repr

/-- Models `NewRollingWindow(count, duration)`. -/
def newRollingWindow (count dur : Int) : RollingWindow :=
  ⟨count, dur, 0, 0, [], []⟩

/-- Models `removeExpiredEvents`: drop head entries with
`time.Since(ts) > rateDuration`, i.e. `now - ts > dur`. -/
def pruneLog (log : List Int) (dur now : Int) : List Int :=
  match log with
  | [] => []
  | t :: rest => if now - t > dur then pruneLog rest dur now else t :: rest

/-- The locked recomputation prefix shared by `WaitContext`, `Allowed` and
`ReserveContext`: `removeExpiredEvents()` followed by
`cleanupExpiredReservations()`. -/
def rwRecompute (s : RollingWindow) (now : Int) : RollingWindow :=
  { s with
    log := pruneLog s.log s.rateDuration now,
    reservations := cleanupRes s.reservations now }

/-- Models `rollingWindow.Allowed()`: after recomputation, admit (append `now`
to the log, bump `allowedEvents`) iff
`len(rollingWindow) + len(pendingReservations) < maxEventCount`, else bump
`deniedEvents`. -/
def rwAllowed (s : RollingWindow) (now : Int) : Bool × RollingWindow :=
  let s1 := rwRecompute s now
  if (s1.log.length : Int) + (pendingCount s1.reservations : Int) < s1.maxEventCount then
    (true, { s1 with log := s1.log ++ [now], allowedEvents := s1.allowedEvents + 1 })
  else
    (false, { s1 with deniedEvents := s1.deniedEvents + 1 })

/-- Models one iteration of the `rollingWindow.WaitContext` loop up to the
admission decision: `some` of the admitted state, or `none` when the caller
releases the lock to sleep. -/
def rwWaitAdmitIter (s : RollingWindow) (now : Int) : Option RollingWindow :=
  let s1 := rwRecompute s now
  if (s1.log.length : Int) + (pendingCount s1.reservations : Int) < s1.maxEventCount then
    some { s1 with log := s1.log ++ [now], allowedEvents := s1.allowedEvents + 1 }
  else
    none

/-- State left behind by a deny iteration of the `WaitContext` /
`ReserveContext` loops (the lock is released after recomputation, before
sleeping). -/
def rwDenyRetryState (s : RollingWindow) (now : Int) : RollingWindow :=
  rwRecompute s now

/-- Models the `ctx.Done()` branch of `WaitContext` and `ReserveContext`:
`deniedEvents++` under the lock, then return the context error. -/
def rwCtxDone (s : RollingWindow) : RollingWindow :=
  { s with deniedEvents := s.deniedEvents + 1 }

/-- Models the wait-duration computation on the deny path of `WaitContext` /
`ReserveContext`: `rateDuration` when the (pruned) log is empty, else
`log[0] + rateDuration - now`. -/
def rwDenyWaitDuration (s : RollingWindow) (now : Int) : Int :=
  match s.log with
  | [] => s.rateDuration
  | t :: _ => t + s.rateDuration - now

/-- Models `rollingWindow.Clear()`: cancel every pending reservation, empty
the pending map, empty the log; counters untouched. -/
def rwClear (s : RollingWindow) : RollingWindow :=
  { s with reservations := cancelAllRes s.reservations, log := [] }

/-- Models `rollingWindow.Stats()`. -/
def rwStats (s : RollingWindow) (now : Int) : Stats :=
  match s.log with
  | [] => ⟨s.allowedEvents, s.deniedEvents, now⟩
  | t :: _ => ⟨s.allowedEvents, s.deniedEvents, t + s.rateDuration⟩

/-- Models one iteration of `rollingWindow.ReserveContext` up to the decision:
on success a fresh pending reservation with `expiresAt = now + ttl` (or no
expiry) is added to the pending map. -/
def rwReserveIter (s : RollingWindow) (now : Int) (ttl : Option Int) : Bool × RollingWindow :=
  let s1 := rwRecompute s now
  if (s1.log.length : Int) + (pendingCount s1.reservations : Int) < s1.maxEventCount then
    (true, { s1 with
      reservations := s1.reservations ++ [⟨ttl.map (fun d => now + d), false, false, true⟩] })
  else
    (false, s1)

/-- Models `rollingWindowReservation.Consume` for the reservation at index
`i`: the flag checks, the expiry check, and on success the append of `now` to
the log plus `allowedEvents++`. -/
def rwConsume (s : RollingWindow) (i : Nat) (now : Int) : Option ConsumeErr × RollingWindow :=
  let r := s.reservations.getD i dRes
  if r.consumed then (some .alreadyConsumed, s)
  else if r.canceled then (some .wasCanceled, s)
  else if resExpired r now then
    (some .expired, { s with reservations := s.reservations.set i { r with inMap := false } })
  else
    (none, { s with
      reservations := s.reservations.set i { r with consumed := true, inMap := false },
      log := s.log ++ [now],
      allowedEvents := s.allowedEvents + 1 })

/-- Models `rollingWindowReservation.Cancel`: when not consumed, set
`canceled` and drop the reservation from the pending map. -/
def rwCancel (s : RollingWindow) (i : Nat) : RollingWindow :=
  { s with reservations := cancelResAt s.reservations i }

/-- States of a `rollingWindow` reachable from construction by the public
operations (each constructor is one locked state transition of the source). -/
inductive RWReach : RollingWindow → Prop where
  | init (count dur : Int) (hc : 0 < count) (hd : 0 < dur) :
      RWReach (newRollingWindow count dur)
  | allowedStep (s : RollingWindow) (now : Int) (h : RWReach s) :
      RWReach (rwAllowed s now).2
  | waitRetry (s : RollingWindow) (now : Int) (h : RWReach s) :
      RWReach (rwDenyRetryState s now)
  | ctxDoneStep (s : RollingWindow) (h : RWReach s) :
      RWReach (rwCtxDone s)
  | clearStep (s : RollingWindow) (h : RWReach s) :
      RWReach (rwClear s)
  | reserveStep (s : RollingWindow) (now : Int) (ttl : Option Int) (h : RWReach s) :
      RWReach (rwReserveIter s now ttl).2
  | consumeStep (s : RollingWindow) (i : Nat) (now : Int) (h : RWReach s)
      (hi : i < s.reservations.length) :
      RWReach (rwConsume s i now).2
  | cancelStep (s : RollingWindow) (i : Nat) (h : RWReach s) :
      RWReach (rwCancel s i)

/-- The `tokenBucket` limiter state (src/unnamed/part_002, package `limit`).
`clock` is not a Go field: it records the largest `time.Now()` value observed
so far and exists only to express monotonicity of the real clock. -/
structure TokenBucket where
  maxCapacity : Int
  currentCapacity : Int
  refillRate : Int
  allowedEvents : Int
  deniedEvents : Int
  lastRefill : Int
  clock : Int
  reservations : List ResState
deriving DecidableEq, Repr

/-- Models `NewTokenBucket(count, duration)` called at time `now`:
`refillRate = duration / count`, bucket starts full. -/
def newTokenBucket (count dur now : Int) : TokenBucket :=
  ⟨count, count, dur / count, 0, 0, now, now, []⟩

/-- Models `tokenBucket.refill()`: add `floor(elapsed / refillRate)` tokens,
cap at `maxCapacity`, and advance `lastRefill` only when at least one whole
token accrued. -/
def tbRefill (s : TokenBucket) (now : Int) : TokenBucket :=
  let elapsed := now - s.lastRefill
  let newTokens := elapsed / s.refillRate
  if newTokens = 0 then { s with clock := now }
  else if s.currentCapacity + newTokens > s.maxCapacity then
    { s with currentCapacity := s.maxCapacity, lastRefill := now, clock := now }
  else
    { s with currentCapacity := s.currentCapacity + newTokens, lastRefill := now, clock := now }

/-- The locked recomputation prefix shared by `WaitContext`, `Allowed` and
`ReserveContext`: `refill()` followed by `cleanupExpiredReservations()`. -/
def tbRecompute (s : TokenBucket) (now : Int) : TokenBucket :=
  let s1 := tbRefill s now
  { s1 with reservations := cleanupRes s1.reservations now }

/-- Models `tokenBucket.Allowed()`: after recomputation, admit (decrement one
token, bump `allowedEvents`) iff
`currentCapacity - len(pendingReservations) > 0`, else bump `deniedEvents`. -/
def tbAllowed (s : TokenBucket) (now : Int) : Bool × TokenBucket :=
  let s1 := tbRecompute s now
  if s1.currentCapacity - (pendingCount s1.reservations : Int) > 0 then
    (true, { s1 with
      currentCapacity := s1.currentCapacity - 1,
      allowedEvents := s1.allowedEvents + 1 })
  else
    (false, { s1 with deniedEvents := s1.deniedEvents + 1 })

/-- Models one iteration of the `tokenBucket.WaitContext` loop up to the
admission decision. -/
def tbWaitAdmitIter (s : TokenBucket) (now : Int) : Option TokenBucket :=
  let s1 := tbRecompute s now
  if s1.currentCapacity - (pendingCount s1.reservations : Int) > 0 then
    some { s1 with
      currentCapacity := s1.currentCapacity - 1,
      allowedEvents := s1.allowedEvents + 1 }
  else
    none

/-- State left behind by a deny iteration of the `WaitContext` /
`ReserveContext` loops. -/
def tbDenyRetryState (s : TokenBucket) (now : Int) : TokenBucket :=
  tbRecompute s now

/-- Models the `ctx.Done()` branch of `WaitContext` / `ReserveContext`. -/
def tbCtxDone (s : TokenBucket) : TokenBucket :=
  { s with deniedEvents := s.deniedEvents + 1 }

/-- Models `tokenBucket.Clear()`: cancel all pending reservations, empty the
pending map, refill to `maxCapacity`, reset `lastRefill` to now. -/
def tbClear (s : TokenBucket) (now : Int) : TokenBucket :=
  { s with
    reservations := cancelAllRes s.reservations,
    currentCapacity := s.maxCapacity,
    lastRefill := now,
    clock := now }

/-- Models `tokenBucket.Stats()`: runs `refill()` (a state mutation), then
reports `lastRefill + refillRate` as the next allowed time when the bucket is
empty, `now` otherwise. -/
def tbStats (s : TokenBucket) (now : Int) : Stats × TokenBucket :=
  let s1 := tbRefill s now
  (⟨s1.allowedEvents, s1.deniedEvents,
    if s1.currentCapacity = 0 then s1.lastRefill + s1.refillRate else now⟩, s1)

/-- Models one iteration of `tokenBucket.ReserveContext` up to the decision:
on success a fresh pending reservation (no token is spent yet) is added. -/
def tbReserveIter (s : TokenBucket) (now : Int) (ttl : Option Int) : Bool × TokenBucket :=
  let s1 := tbRecompute s now
  if s1.currentCapacity - (pendingCount s1.reservations : Int) > 0 then
    (true, { s1 with
      reservations := s1.reservations ++ [⟨ttl.map (fun d => now + d), false, false, true⟩] })
  else
    (false, s1)

/-- Models `tokenBucketReservation.Consume` for the reservation at index `i`:
flag checks, expiry check, and on success the (unguarded) token decrement
plus `allowedEvents++`. -/
def tbConsume (s : TokenBucket) (i : Nat) (now : Int) : Option ConsumeErr × TokenBucket :=
  let r := s.reservations.getD i dRes
  if r.consumed then (some .alreadyConsumed, s)
  else if r.canceled then (some .wasCanceled, s)
  else if resExpired r now then
    (some .expired, { s with
      reservations := s.reservations.set i { r with inMap := false },
      clock := now })
  else
    (none, { s with
      reservations := s.reservations.set i { r with consumed := true, inMap := false },
      currentCapacity := s.currentCapacity - 1,
      allowedEvents := s.allowedEvents + 1,
      clock := now })

/-- Models `tokenBucketReservation.Cancel`. -/
def tbCancel (s : TokenBucket) (i : Nat) : TokenBucket :=
  { s with reservations := cancelResAt s.reservations i }

/-- States of a `tokenBucket` reachable from construction by the public
operations.  Each time-reading step carries the monotone-clock hypothesis
`s.clock ≤ now`.  `hr` records that the configured `refillRate =
duration / count` is positive (a zero rate makes the Go code divide by
zero in `refill`). -/
inductive TBReach : TokenBucket → Prop where
  | init (count dur now : Int) (hc : 0 < count) (hr : 0 < dur / count) :
      TBReach (newTokenBucket count dur now)
  | allowedStep (s : TokenBucket) (now : Int) (h : TBReach s) (hn : s.clock ≤ now) :
      TBReach (tbAllowed s now).2
  | waitRetry (s : TokenBucket) (now : Int) (h : TBReach s) (hn : s.clock ≤ now) :
      TBReach (tbDenyRetryState s now)
  | ctxDoneStep (s : TokenBucket) (h : TBReach s) :
      TBReach (tbCtxDone s)
  | clearStep (s : TokenBucket) (now : Int) (h : TBReach s) (hn : s.clock ≤ now) :
      TBReach (tbClear s now)
  | statsStep (s : TokenBucket) (now : Int) (h : TBReach s) (hn : s.clock ≤ now) :
      TBReach (tbStats s now).2
  | reserveStep (s : TokenBucket) (now : Int) (ttl : Option Int) (h : TBReach s)
      (hn : s.clock ≤ now) :
      TBReach (tbReserveIter s now ttl).2
  | consumeStep (s : TokenBucket) (i : Nat) (now : Int) (h : TBReach s) (hn : s.clock ≤ now)
      (hi : i < s.reservations.length) :
      TBReach (tbConsume s i now).2
  | cancelStep (s : TokenBucket) (i : Nat) (h : TBReach s) :
      TBReach (tbCancel s i)

/-- The `leakyBucket` limiter state (src/leaky_bucket.go).  `maxCapacity` is
the queue bound (`maxQueue`), `currentCapacity` the queue depth. -/
structure LeakyBucket where
  maxCapacity : Int
  currentCapacity : Int
  leakRate : Int
  allowedEvents : Int
  deniedEvents : Int
  lastLeak : Int
  reservations : List ResState
deriving DecidableEq, Repr

/-- Models `NewLeakyBucket(count, duration, maxQueue)` called at time `now`:
`leakRate = duration / count`, empty queue, `lastLeak` backdated by one leak
interval so the first request may pass immediately. -/
def newLeakyBucket (count dur maxQueue now : Int) : LeakyBucket :=
  ⟨maxQueue, 0, dur / count, 0, 0, now - dur / count, []⟩

/-- Models `leakyBucket.canLeak()`: `time.Since(lastLeak) >= leakRate`. -/
def lbCanLeak (s : LeakyBucket) (now : Int) : Bool :=
  decide (s.leakRate ≤ now - s.lastLeak)

/-- Models `leakyBucket.leak()`: decrement the queue depth (clamped at zero)
and reset the leak timer. -/
def lbLeak (s : LeakyBucket) (now : Int) : LeakyBucket :=
  let c := s.currentCapacity - 1
  { s with currentCapacity := if c < 0 then 0 else c, lastLeak := now }

/-- Models `leakyBucket.Allow()`: admit (leak, bump `allowedEvents`) iff the
queue is empty and the leak timer has elapsed; otherwise bump
`deniedEvents`.  `Allow` never enqueues. -/
def lbAllow (s : LeakyBucket) (now : Int) : Bool × LeakyBucket :=
  if s.currentCapacity = 0 && lbCanLeak s now then
    let s1 := lbLeak s now
    (true, { s1 with allowedEvents := s1.allowedEvents + 1 })
  else
    (false, { s with deniedEvents := s.deniedEvents + 1 })

/-- Models the entry of `leakyBucket.WaitContext` before its loop: immediate
rejection (`deniedEvents++`, error) when
`currentCapacity + len(pendingReservations) >= maxCapacity`, else the event
is queued (`currentCapacity++`).  `true` in the first component means the
queue-full error was returned. -/
def lbWaitStart (s : LeakyBucket) : Bool × LeakyBucket :=
  if s.currentCapacity + (pendingCount s.reservations : Int) ≥ s.maxCapacity then
    (true, { s with deniedEvents := s.deniedEvents + 1 })
  else
    (false, { s with currentCapacity := s.currentCapacity + 1 })

/-- Models one iteration of the `WaitContext` leak-wait loop up to the
decision: `some` of the admitted state (leak + `allowedEvents++` after
cleanup), or `none` when the caller sleeps. -/
def lbWaitAdmitIter (s : LeakyBucket) (now : Int) : Option LeakyBucket :=
  let s1 := { s with reservations := cleanupRes s.reservations now }
  if lbCanLeak s1 now then
    let s2 := lbLeak s1 now
    some { s2 with allowedEvents := s2.allowedEvents + 1 }
  else
    none

/-- Models the `ctx.Done()` branch of the `WaitContext` loop:
`deniedEvents++` and the queued event is removed (`currentCapacity--`). -/
def lbWaitCtxDone (s : LeakyBucket) : LeakyBucket :=
  { s with
    deniedEvents := s.deniedEvents + 1,
    currentCapacity := s.currentCapacity - 1 }

/-- Models `leakyBucket.Clear()`: cancel pending reservations, empty the
pending map, zero the queue depth, backdate the leak timer. -/
def lbClear (s : LeakyBucket) (now : Int) : LeakyBucket :=
  { s with
    reservations := cancelAllRes s.reservations,
    currentCapacity := 0,
    lastLeak := now - s.leakRate }

/-- Models `leakyBucket.Stats()`. -/
def lbStats (s : LeakyBucket) (now : Int) : Stats :=
  ⟨s.allowedEvents, s.deniedEvents,
    if 0 < s.currentCapacity then s.lastLeak + s.leakRate else now⟩

/-- Models `leakyBucket.ReserveContext`: after cleanup, immediate rejection
(`deniedEvents++`) when the queue bound is met, else a fresh pending
reservation whose expiry is the context deadline (when present). -/
def lbReserveTry (s : LeakyBucket) (now : Int) (ttl : Option Int) : Bool × LeakyBucket :=
  let s1 := { s with reservations := cleanupRes s.reservations now }
  if s1.currentCapacity + (pendingCount s1.reservations : Int) ≥ s1.maxCapacity then
    (false, { s1 with deniedEvents := s1.deniedEvents + 1 })
  else
    (true, { s1 with
      reservations := s1.reservations ++ [⟨ttl.map (fun d => now + d), false, false, true⟩] })

/-- Outcome of the locked first section of `leakyBucketReservation.Consume`. -/
inductive LBConsumeStart where
  | err (e : ConsumeErr)
  | admitted
  | waiting
deriving DecidableEq, Repr

/-- Models `leakyBucketReservation.Consume` up to its first unlock: flag and
expiry checks; on a live reservation, mark it consumed, drop it from the
pending map and enqueue it (`currentCapacity++`); then leak immediately when
possible, else enter the wait loop (`waiting`). -/
def lbConsumeStart (s : LeakyBucket) (i : Nat) (now : Int) : LBConsumeStart × LeakyBucket :=
  let r := s.reservations.getD i dRes
  if r.consumed then (.err .alreadyConsumed, s)
  else if r.canceled then (.err .wasCanceled, s)
  else if resExpired r now then
    (.err .expired, { s with reservations := s.reservations.set i { r with inMap := false } })
  else
    let s1 := { s with
      reservations := s.reservations.set i { r with consumed := true, inMap := false },
      currentCapacity := s.currentCapacity + 1 }
    if lbCanLeak s1 now then
      let s2 := lbLeak s1 now
      (.admitted, { s2 with allowedEvents := s2.allowedEvents + 1 })
    else
      (.waiting, s1)

/-- Outcome of one iteration of the `Consume` wait loop. -/
inductive LBWaitOutcome where
  | expiredWaiting
  | leaked
  | again
deriving DecidableEq, Repr

/-- Models one iteration of the `Consume` wait loop: the deadline check made
at time `tCheck` before sleeping (returning the "reservation expired while
waiting to leak" error without touching the queue depth), then the
`canLeak` check made at time `tWake` after sleeping. -/
def lbConsumeWaitIter (s : LeakyBucket) (deadline : Option Int) (tCheck tWake : Int) :
    LBWaitOutcome × LeakyBucket :=
  match deadline with
  | some d =>
      if d - tCheck ≤ 0 then (.expiredWaiting, s)
      else if lbCanLeak s tWake then
        let s1 := lbLeak s tWake
        (.leaked, { s1 with allowedEvents := s1.allowedEvents + 1 })
      else (.again, s)
  | none =>
      if lbCanLeak s tWake then
        let s1 := lbLeak s tWake
        (.leaked, { s1 with allowedEvents := s1.allowedEvents + 1 })
      else (.again, s)

/-- Models `leakyBucketReservation.Cancel`. -/
def lbCancel (s : LeakyBucket) (i : Nat) : LeakyBucket :=
  { s with reservations := cancelResAt s.reservations i }

/-- The flag part of the reservation lifecycle invariant: a reservation is
never both consumed and canceled, and a reservation still in the pending map
is in the pending state (neither flag set). -/
def ResFlagsOK (r : ResState) : Prop :=
  ¬(r.consumed = true ∧ r.canceled = true) ∧
  (r.inMap = true → r.consumed = false ∧ r.canceled = false)

theorem resExpired_iff (r : ResState) (now : Int) :
    resExpired r now = true ↔ ∃ e, r.expiresAt = some e ∧ e < now := by
  unfold resExpired
  cases h : r.expiresAt <;> simp [h]

theorem resFlagsOK_cleanupRes (l : List ResState) (now : Int)
    (h : ∀ r ∈ l, ResFlagsOK r) : ∀ r ∈ cleanupRes l now, ResFlagsOK r := by
  intro r' hr'
  simp only [cleanupRes, List.mem_map] at hr'
  obtain ⟨r, hr, hf⟩ := hr'
  by_cases hc : (r.inMap && resExpired r now) = true
  · rw [if_pos hc] at hf
    subst hf
    refine ⟨fun hb => (h r hr).1 ⟨hb.1, hb.2⟩, fun him => ?_⟩
    simp at him
  · rw [if_neg hc] at hf
    subst hf
    exact h r hr

theorem resFlagsOK_cancelAllRes (l : List ResState)
    (h : ∀ r ∈ l, ResFlagsOK r) : ∀ r ∈ cancelAllRes l, ResFlagsOK r := by
  intro r' hr'
  simp only [cancelAllRes, List.mem_map] at hr'
  obtain ⟨r, hr, hf⟩ := hr'
  by_cases hc : r.inMap = true
  · rw [if_pos hc] at hf
    subst hf
    refine ⟨fun hb => ?_, fun him => ?_⟩
    · exact absurd hb.1 (by simp [((h r hr).2 hc).1])
    · simp at him
  · rw [if_neg hc] at hf
    subst hf
    exact h r hr

theorem resFlagsOK_set (l : List ResState) (i : Nat) (a : ResState)
    (h : ∀ r ∈ l, ResFlagsOK r) (ha : ResFlagsOK a) : ∀ r ∈ l.set i a, ResFlagsOK r := by
  intro r' hr'
  rcases List.mem_or_eq_of_mem_set hr' with hm | he
  · exact h r' hm
  · exact he ▸ ha

theorem resFlagsOK_append_fresh (l : List ResState) (texp : Option Int)
    (h : ∀ r ∈ l, ResFlagsOK r) :
    ∀ r ∈ l ++ [(⟨texp, false, false, true⟩ : ResState)], ResFlagsOK r := by
  intro r' hr'
  rcases List.mem_append.mp hr' with hm | hm
  · exact h r' hm
  · have : r' = (⟨texp, false, false, true⟩ : ResState) := by simpa using hm
    subst this
    exact ⟨fun hb => by simp at hb, fun _ => ⟨rfl, rfl⟩⟩

/-- The reservation-flag invariant of a rolling window. -/
def RWFlagsInv (s : RollingWindow) : Prop :=
  ∀ r ∈ s.reservations, ResFlagsOK r

theorem rwReach_flagsInv {s : RollingWindow} (h : RWReach s) : RWFlagsInv s := by
  induction h with
  | init count dur hc hd =>
      intro r hr
      simp [newRollingWindow] at hr
  | allowedStep s now h ih =>
      unfold rwAllowed rwRecompute
      dsimp only
      split
      · exact resFlagsOK_cleanupRes _ now ih
      · exact resFlagsOK_cleanupRes _ now ih
  | waitRetry s now h ih =>
      exact resFlagsOK_cleanupRes _ now ih
  | ctxDoneStep s h ih =>
      exact ih
  | clearStep s h ih =>
      exact resFlagsOK_cancelAllRes _ ih
  | reserveStep s now ttl h ih =>
      unfold rwReserveIter rwRecompute
      dsimp only
      split
      · exact resFlagsOK_append_fresh _ _ (resFlagsOK_cleanupRes _ now ih)
      · exact resFlagsOK_cleanupRes _ now ih
  | consumeStep s i now h hi ih =>
      unfold rwConsume
      dsimp only
      split
      · exact ih
      · split
        · exact ih
        · split
          · exact resFlagsOK_set _ i _ ih
              ⟨fun hb => (ih _ (getD_mem _ i hi)).1 ⟨hb.1, hb.2⟩, fun him => by simp at him⟩
          · rename_i hcons hcanc hexp
            simp only [Bool.not_eq_true] at hcanc
            exact resFlagsOK_set _ i _ ih
              ⟨fun hb => by
                have hb2 : (s.reservations.getD i dRes).canceled = true := hb.2
                rw [hcanc] at hb2
                exact Bool.false_ne_true hb2,
              fun him => by simp at him⟩
  | cancelStep s i h ih =>
      unfold rwCancel cancelResAt
      dsimp only
      split
      · exact ih
      · rename_i hcons
        simp only [Bool.not_eq_true] at hcons
        exact resFlagsOK_set _ i _ ih
          ⟨fun hb => by
            have hb2 : (s.reservations.getD i dRes).consumed = true := hb.1
            rw [hcons] at hb2
            exact Bool.false_ne_true hb2,
          fun him => by simp at him⟩

/-- The part of the reservation invariant that needs the monotone clock: a
reservation object no longer in the pending map has been consumed, canceled,
or had expired strictly before the last observed time. -/
def ResOutOK (clock : Int) (r : ResState) : Prop :=
  r.inMap = false →
    r.consumed = true ∨ r.canceled = true ∨ ∃ e, r.expiresAt = some e ∧ e < clock

theorem resOutOK_mono {c c' : Int} (h : c ≤ c') (r : ResState) (hr : ResOutOK c r) :
    ResOutOK c' r := by
  intro him
  rcases hr him with h1 | h2 | ⟨e, he, hlt⟩
  · exact Or.inl h1
  · exact Or.inr (Or.inl h2)
  · exact Or.inr (Or.inr ⟨e, he, lt_of_lt_of_le hlt h⟩)

theorem resOK_cleanupRes (l : List ResState) (now : Int)
    (h : ∀ r ∈ l, ResFlagsOK r ∧ ResOutOK now r) :
    ∀ r ∈ cleanupRes l now, ResFlagsOK r ∧ ResOutOK now r := by
  intro r' hr'
  simp only [cleanupRes, List.mem_map] at hr'
  obtain ⟨r, hr, hf⟩ := hr'
  by_cases hc : (r.inMap && resExpired r now) = true
  · rw [if_pos hc] at hf
    subst hf
    obtain ⟨e, he, hlt⟩ := (resExpired_iff r now).mp (Bool.and_elim_right hc)
    exact ⟨⟨fun hb => (h r hr).1.1 ⟨hb.1, hb.2⟩, fun him => by simp at him⟩,
      fun _ => Or.inr (Or.inr ⟨e, he, hlt⟩)⟩
  · rw [if_neg hc] at hf
    subst hf
    exact h r hr

theorem resOK_cancelAllRes (l : List ResState) (clock now : Int) (hn : clock ≤ now)
    (h : ∀ r ∈ l, ResFlagsOK r ∧ ResOutOK clock r) :
    ∀ r ∈ cancelAllRes l, ResFlagsOK r ∧ ResOutOK now r := by
  intro r' hr'
  simp only [cancelAllRes, List.mem_map] at hr'
  obtain ⟨r, hr, hf⟩ := hr'
  by_cases hc : r.inMap = true
  · rw [if_pos hc] at hf
    subst hf
    refine ⟨⟨fun hb => ?_, fun him => by simp at him⟩, fun _ => Or.inr (Or.inl rfl)⟩
    have hb1 : r.consumed = true := hb.1
    rw [((h r hr).1.2 hc).1] at hb1
    exact Bool.false_ne_true hb1
  · rw [if_neg hc] at hf
    subst hf
    exact ⟨(h r hr).1, resOutOK_mono hn r (h r hr).2⟩

/-- The inductive invariant of the token bucket: validated configuration,
monotone bookkeeping, the pending reservations never outnumbering the
tokens, the token count never above capacity, and the per-reservation
lifecycle invariants. -/
structure TBInv (s : TokenBucket) : Prop where
  maxPos : 0 < s.maxCapacity
  ratePos : 0 < s.refillRate
  refillLe : s.lastRefill ≤ s.clock
  pendLe : (pendingCount s.reservations : Int) ≤ s.currentCapacity
  capLe : s.currentCapacity ≤ s.maxCapacity
  resOK : ∀ r ∈ s.reservations, ResFlagsOK r ∧ ResOutOK s.clock r

theorem tbRefill_clock (s : TokenBucket) (now : Int) : (tbRefill s now).clock = now := by
  unfold tbRefill
  dsimp only
  split
  · rfl
  · split <;> rfl

theorem tbRefill_inv {s : TokenBucket} {now : Int} (h : TBInv s) (hn : s.clock ≤ now) :
    TBInv (tbRefill s now) := by
  obtain ⟨h1, h2, h3, h4, h5, h6⟩ := h
  have helapsed : 0 ≤ now - s.lastRefill := by omega
  have hk : 0 ≤ (now - s.lastRefill) / s.refillRate := Int.ediv_nonneg helapsed (le_of_lt h2)
  have hres : ∀ r ∈ s.reservations, ResFlagsOK r ∧ ResOutOK now r :=
    fun r hr => ⟨(h6 r hr).1, resOutOK_mono hn r (h6 r hr).2⟩
  unfold tbRefill
  dsimp only
  split
  · exact ⟨h1, h2, (by omega : s.lastRefill ≤ now), h4, h5, hres⟩
  · split
    · exact ⟨h1, h2, le_refl now, (by omega : (pendingCount s.reservations : Int) ≤ s.maxCapacity),
        le_refl s.maxCapacity, hres⟩
    · rename_i hne hle
      exact ⟨h1, h2, le_refl now,
        (by omega : (pendingCount s.reservations : Int) ≤ s.currentCapacity + (now - s.lastRefill) / s.refillRate),
        (by omega : s.currentCapacity + (now - s.lastRefill) / s.refillRate ≤ s.maxCapacity), hres⟩

theorem tbRecompute_inv {s : TokenBucket} {now : Int} (h : TBInv s) (hn : s.clock ≤ now) :
    TBInv (tbRecompute s now) := by
  obtain ⟨a1, a2, a3, a4, a5, a6⟩ := tbRefill_inv h hn
  have hc : (tbRefill s now).clock = now := tbRefill_clock s now
  rw [hc] at a6
  unfold tbRecompute
  dsimp only
  refine ⟨a1, a2, a3, ?_, a5, ?_⟩
  · have hle := pendingCount_cleanupRes_le (tbRefill s now).reservations now
    have hle2 : (pendingCount (cleanupRes (tbRefill s now).reservations now) : Int)
        ≤ (pendingCount (tbRefill s now).reservations : Int) := by exact_mod_cast hle
    dsimp only
    omega
  · rw [hc]
    exact resOK_cleanupRes _ now a6

theorem tbRecompute_clock (s : TokenBucket) (now : Int) : (tbRecompute s now).clock = now :=
  tbRefill_clock s now

theorem tbAllowed_inv {s : TokenBucket} {now : Int} (h : TBInv s) (hn : s.clock ≤ now) :
    TBInv (tbAllowed s now).2 := by
  obtain ⟨a1, a2, a3, a4, a5, a6⟩ := tbRecompute_inv h hn
  unfold tbAllowed
  dsimp only
  split
  · rename_i hcond
    refine ⟨a1, a2, a3, ?_, ?_, a6⟩
    · dsimp only
      omega
    · dsimp only
      omega
  · exact ⟨a1, a2, a3, a4, a5, a6⟩

theorem tbReserve_inv {s : TokenBucket} {now : Int} {ttl : Option Int}
    (h : TBInv s) (hn : s.clock ≤ now) : TBInv (tbReserveIter s now ttl).2 := by
  obtain ⟨a1, a2, a3, a4, a5, a6⟩ := tbRecompute_inv h hn
  have hc := tbRecompute_clock s now
  unfold tbReserveIter
  dsimp only
  split
  · rename_i hcond
    refine ⟨a1, a2, a3, ?_, a5, ?_⟩
    · rw [pendingCount_append]
      have : pendingCount [(⟨ttl.map (fun d => now + d), false, false, true⟩ : ResState)] = 1 := rfl
      rw [this]
      push_cast
      omega
    · intro r' hr'
      rcases List.mem_append.mp hr' with hm | hm
      · exact a6 r' hm
      · have he : r' = (⟨ttl.map (fun d => now + d), false, false, true⟩ : ResState) := by
          simpa using hm
        subst he
        exact ⟨⟨fun hb => by simp at hb, fun _ => ⟨rfl, rfl⟩⟩, fun him => by simp at him⟩
  · exact ⟨a1, a2, a3, a4, a5, a6⟩

theorem tbClear_inv {s : TokenBucket} {now : Int} (h : TBInv s) (hn : s.clock ≤ now) :
    TBInv (tbClear s now) := by
  obtain ⟨a1, a2, a3, a4, a5, a6⟩ := h
  unfold tbClear
  refine ⟨a1, a2, le_refl now, ?_, le_refl s.maxCapacity, ?_⟩
  · rw [pendingCount_cancelAllRes]
    exact_mod_cast le_of_lt a1
  · exact resOK_cancelAllRes _ s.clock now hn a6

theorem tbConsume_inv {s : TokenBucket} {i : Nat} {now : Int}
    (h : TBInv s) (hn : s.clock ≤ now) (hi : i < s.reservations.length) :
    TBInv (tbConsume s i now).2 := by
  obtain ⟨a1, a2, a3, a4, a5, a6⟩ := h
  have hmem : s.reservations.getD i dRes ∈ s.reservations := getD_mem _ i hi
  have hrOK := a6 _ hmem
  unfold tbConsume
  dsimp only
  split
  · exact ⟨a1, a2, a3, a4, a5, a6⟩
  · split
    · exact ⟨a1, a2, a3, a4, a5, a6⟩
    · split
      · rename_i hcons hcanc hexp
        obtain ⟨e, he, hlt⟩ := (resExpired_iff _ now).mp hexp
        refine ⟨a1, a2, (by omega : s.lastRefill ≤ now), ?_, a5, ?_⟩
        · have hle := pendingCount_set_notInMap_le s.reservations i
            { s.reservations.getD i dRes with inMap := false } rfl
          have hle2 : (pendingCount (s.reservations.set i
              { s.reservations.getD i dRes with inMap := false }) : Int)
              ≤ (pendingCount s.reservations : Int) := by exact_mod_cast hle
          dsimp only at hle2 ⊢
          omega
        · intro r' hr'
          rcases List.mem_or_eq_of_mem_set hr' with hm | hE
          · exact ⟨(a6 r' hm).1, resOutOK_mono hn r' (a6 r' hm).2⟩
          · subst hE
            exact ⟨⟨fun hb => hrOK.1.1 ⟨hb.1, hb.2⟩, fun him => by simp at him⟩,
              fun _ => Or.inr (Or.inr ⟨e, he, hlt⟩)⟩
      · rename_i hcons hcanc hexp
        simp only [Bool.not_eq_true] at hcons hcanc
        have hin : (s.reservations.getD i dRes).inMap = true := by
          by_contra hnin
          simp only [Bool.not_eq_true] at hnin
          rcases hrOK.2 hnin with hc1 | hc2 | ⟨e, he, hlt⟩
          · rw [hcons] at hc1
            exact Bool.false_ne_true hc1
          · rw [hcanc] at hc2
            exact Bool.false_ne_true hc2
          · have : resExpired (s.reservations.getD i dRes) now = true :=
              (resExpired_iff _ now).mpr ⟨e, he, by omega⟩
            rw [this] at hexp
            exact hexp rfl
        have hpos : 1 ≤ pendingCount s.reservations :=
          pendingCount_pos_of_inMap _ _ hmem hin
        have hset := pendingCount_set s.reservations i
          { s.reservations.getD i dRes with consumed := true, inMap := false } hi
        rw [if_pos hin] at hset
        have hset2 : pendingCount (s.reservations.set i
            { s.reservations.getD i dRes with consumed := true, inMap := false }) + 1
            = pendingCount s.reservations := by
          have hz : (if ({ s.reservations.getD i dRes with
              consumed := true, inMap := false } : ResState).inMap = true
              then (1 : Nat) else 0) = 0 := rfl
          rw [hz] at hset
          omega
        refine ⟨a1, a2, (by omega : s.lastRefill ≤ now), ?_, ?_, ?_⟩
        · have hcast : (pendingCount (s.reservations.set i
              { s.reservations.getD i dRes with consumed := true, inMap := false }) : Int) + 1
              = (pendingCount s.reservations : Int) := by exact_mod_cast hset2
          dsimp only at hcast ⊢
          omega
        · dsimp only
          omega
        · intro r' hr'
          rcases List.mem_or_eq_of_mem_set hr' with hm | hE
          · exact ⟨(a6 r' hm).1, resOutOK_mono hn r' (a6 r' hm).2⟩
          · subst hE
            exact ⟨⟨fun hb => by
                have hb2 : (s.reservations.getD i dRes).canceled = true := hb.2
                rw [hcanc] at hb2
                exact Bool.false_ne_true hb2,
              fun him => by simp at him⟩,
              fun _ => Or.inl rfl⟩

theorem tbCancel_inv {s : TokenBucket} {i : Nat} (h : TBInv s) : TBInv (tbCancel s i) := by
  obtain ⟨a1, a2, a3, a4, a5, a6⟩ := h
  unfold tbCancel cancelResAt
  dsimp only
  split
  · exact ⟨a1, a2, a3, a4, a5, a6⟩
  · rename_i hcons
    simp only [Bool.not_eq_true] at hcons
    refine ⟨a1, a2, a3, ?_, a5, ?_⟩
    · have hle := pendingCount_set_notInMap_le s.reservations i
        { s.reservations.getD i dRes with canceled := true, inMap := false } rfl
      have hle2 : (pendingCount (s.reservations.set i
          { s.reservations.getD i dRes with canceled := true, inMap := false }) : Int)
          ≤ (pendingCount s.reservations : Int) := by exact_mod_cast hle
      dsimp only at hle2 ⊢
      omega
    · intro r' hr'
      rcases List.mem_or_eq_of_mem_set hr' with hm | hE
      · exact a6 r' hm
      · subst hE
        exact ⟨⟨fun hb => by
            have hb2 : (s.reservations.getD i dRes).consumed = true := hb.1
            rw [hcons] at hb2
            exact Bool.false_ne_true hb2,
          fun him => by simp at him⟩,
          fun _ => Or.inr (Or.inl rfl)⟩

theorem tbReach_inv {s : TokenBucket} (h : TBReach s) : TBInv s := by
  induction h with
  | init count dur now hc hr =>
      refine ⟨hc, hr, le_refl now, ?_, le_refl count, ?_⟩
      · show ((pendingCount [] : Nat) : Int) ≤ count
        rw [pendingCount_nil]
        exact_mod_cast le_of_lt hc
      · intro r hr'
        simp [newTokenBucket] at hr'
  | allowedStep s now h hn ih => exact tbAllowed_inv ih hn
  | waitRetry s now h hn ih => exact tbRecompute_inv ih hn
  | ctxDoneStep s h ih =>
      obtain ⟨a1, a2, a3, a4, a5, a6⟩ := ih
      exact ⟨a1, a2, a3, a4, a5, a6⟩
  | clearStep s now h hn ih => exact tbClear_inv ih hn
  | statsStep s now h hn ih => exact tbRefill_inv ih hn
  | reserveStep s now ttl h hn ih => exact tbReserve_inv ih hn
  | consumeStep s i now h hn hi ih => exact tbConsume_inv ih hn hi
  | cancelStep s i h ih => exact tbCancel_inv ih

theorem tbRefill_allowedEvents (s : TokenBucket) (now : Int) :
    (tbRefill s now).allowedEvents = s.allowedEvents := by
  unfold tbRefill
  dsimp only
  split
  · rfl
  · split <;> rfl

theorem tbRefill_deniedEvents (s : TokenBucket) (now : Int) :
    (tbRefill s now).deniedEvents = s.deniedEvents := by
  unfold tbRefill
  dsimp only
  split
  · rfl
  · split <;> rfl

theorem tbRefill_reservations (s : TokenBucket) (now : Int) :
    (tbRefill s now).reservations = s.reservations := by
  unfold tbRefill
  dsimp only
  split
  · rfl
  · split <;> rfl

theorem tbRefill_maxCapacity (s : TokenBucket) (now : Int) :
    (tbRefill s now).maxCapacity = s.maxCapacity := by
  unfold tbRefill
  dsimp only
  split
  · rfl
  · split <;> rfl

theorem tbRefill_refillRate (s : TokenBucket) (now : Int) :
    (tbRefill s now).refillRate = s.refillRate := by
  unfold tbRefill
  dsimp only
  split
  · rfl
  · split <;> rfl

/-- C2: for the token-bucket limiter, every public operation, starting from
any state reachable from the initial state, preserves the invariant
`0 ≤ currentCapacity ≤ maxCapacity` — reachable states satisfy the bounds,
and every reachability step (which is exactly one public-operation state
transition) stays in the set of reachable states; in particular the
unguarded token decrement of `tokenBucketReservation.Consume`, taken from a
reachable state at a later time `now` on a real reservation index, never
drives the count below zero. -/
theorem claim_C2_token_capacity_invariant {s : TokenBucket} (h : TBReach s) :
    (0 ≤ s.currentCapacity ∧ s.currentCapacity ≤ s.maxCapacity) ∧
    (∀ i now, s.clock ≤ now → i < s.reservations.length →
      0 ≤ (tbConsume s i now).2.currentCapacity ∧
      (tbConsume s i now).2.currentCapacity ≤ (tbConsume s i now).2.maxCapacity) := by
  have hb : ∀ {u : TokenBucket}, TBReach u →
      0 ≤ u.currentCapacity ∧ u.currentCapacity ≤ u.maxCapacity := by
    intro u hu
    obtain ⟨b1, b2, b3, b4, b5, b6⟩ := tbReach_inv hu
    constructor
    · omega
    · exact b5
  refine ⟨hb h, ?_⟩
  intro i now hn hi
  exact hb (TBReach.consumeStep s i now h hn hi)

/-- Witness for C2 at a concrete run: a bucket of capacity 5 over 1000ns,
one reservation taken at time 0 and consumed at time 0. -/
theorem claim_C2_witness :
    0 ≤ (tbConsume (tbReserveIter (newTokenBucket 5 1000 0) 0 (some 100)).2 0 0).2.currentCapacity ∧
    (tbConsume (tbReserveIter (newTokenBucket 5 1000 0) 0 (some 100)).2 0 0).2.currentCapacity
      ≤ (tbConsume (tbReserveIter (newTokenBucket 5 1000 0) 0 (some 100)).2 0 0).2.maxCapacity := by
  have h0 : TBReach (newTokenBucket 5 1000 0) :=
    TBReach.init 5 1000 0 (by decide) (by decide)
  have h1 : TBReach (tbReserveIter (newTokenBucket 5 1000 0) 0 (some 100)).2 :=
    TBReach.reserveStep _ 0 (some 100) h0 (by decide)
  exact (claim_C2_token_capacity_invariant h1).2 0 0 (by decide) (by decide)

/-- C5: on any access, `refill` adds exactly `floor(elapsed / refillRate)`
tokens (Euclidean and truncating division agree because `elapsed ≥ 0`), caps
the result at `maxCapacity`, and advances `lastRefill` (to `now`) only when
at least one whole token accrued; with zero whole tokens both the count and
`lastRefill` are unchanged. -/
theorem claim_C5_refill_exact (s : TokenBucket) (now : Int)
    (hrate : 0 < s.refillRate) (hmono : s.lastRefill ≤ now) :
    0 ≤ (now - s.lastRefill) / s.refillRate ∧
    ((now - s.lastRefill) / s.refillRate = 0 →
      (tbRefill s now).currentCapacity = s.currentCapacity ∧
      (tbRefill s now).lastRefill = s.lastRefill) ∧
    ((now - s.lastRefill) / s.refillRate ≠ 0 →
      (tbRefill s now).currentCapacity
        = min (s.currentCapacity + (now - s.lastRefill) / s.refillRate) s.maxCapacity ∧
      (tbRefill s now).lastRefill = now) := by
  refine ⟨Int.ediv_nonneg (by omega) (le_of_lt hrate), ?_, ?_⟩
  · intro hz
    unfold tbRefill
    dsimp only
    rw [if_pos hz]
    exact ⟨rfl, rfl⟩
  · intro hnz
    unfold tbRefill
    dsimp only
    rw [if_neg hnz]
    split
    · rename_i hgt
      refine ⟨?_, rfl⟩
      show s.maxCapacity
        = min (s.currentCapacity + (now - s.lastRefill) / s.refillRate) s.maxCapacity
      rw [min_eq_right
        (by omega : s.maxCapacity ≤ s.currentCapacity + (now - s.lastRefill) / s.refillRate)]
    · rename_i hle
      refine ⟨?_, rfl⟩
      show s.currentCapacity + (now - s.lastRefill) / s.refillRate
        = min (s.currentCapacity + (now - s.lastRefill) / s.refillRate) s.maxCapacity
      rw [min_eq_left
        (by omega : s.currentCapacity + (now - s.lastRefill) / s.refillRate ≤ s.maxCapacity)]

/-- Witness for C5: capacity 5 over 1000ns (rate 200), empty elapsed and a
450ns elapsed (2 whole tokens). -/
theorem claim_C5_witness :
    ((tbRefill (newTokenBucket 5 1000 0) 100).currentCapacity = 5 ∧
      (tbRefill (newTokenBucket 5 1000 0) 100).lastRefill = 0) ∧
    ((tbRefill ⟨5, 1, 200, 0, 0, 0, 450, []⟩ 450).currentCapacity
        = min (1 + 450 / 200) 5 ∧
      (tbRefill ⟨5, 1, 200, 0, 0, 0, 450, []⟩ 450).lastRefill = 450) := by
  constructor
  · exact (claim_C5_refill_exact (newTokenBucket 5 1000 0) 100 (by decide) (by decide)).2.1
      (by decide)
  · exact (claim_C5_refill_exact ⟨5, 1, 200, 0, 0, 0, 450, []⟩ 450 (by decide) (by decide)).2.2
      (by decide)

theorem tbRecompute_allowedEvents (s : TokenBucket) (now : Int) :
    (tbRecompute s now).allowedEvents = s.allowedEvents := by
  unfold tbRecompute
  dsimp only
  exact tbRefill_allowedEvents s now

theorem tbRecompute_deniedEvents (s : TokenBucket) (now : Int) :
    (tbRecompute s now).deniedEvents = s.deniedEvents := by
  unfold tbRecompute
  dsimp only
  exact tbRefill_deniedEvents s now

/-- C6: for the sliding-window and token-bucket limiters, a successful
`Allowed()` performs exactly the same state transition as the admit step of
a successful `WaitContext()`: from the same pre-state it reaches the same
post-state (same appended log entry / same token decrement, same
`allowedEvents` increment), and the two admit conditions agree — so `Allow`
is an admitting operation, not a side-effect-free probe. -/
theorem claim_C6_allow_equals_wait_step (s : RollingWindow) (t : TokenBucket) (now : Int) :
    ((rwAllowed s now).1 = true →
      rwWaitAdmitIter s now = some (rwAllowed s now).2 ∧
      (rwAllowed s now).2.allowedEvents = s.allowedEvents + 1 ∧
      (rwAllowed s now).2.log = (rwRecompute s now).log ++ [now]) ∧
    (rwWaitAdmitIter s now = none → (rwAllowed s now).1 = false) ∧
    ((tbAllowed t now).1 = true →
      tbWaitAdmitIter t now = some (tbAllowed t now).2 ∧
      (tbAllowed t now).2.allowedEvents = t.allowedEvents + 1 ∧
      (tbAllowed t now).2.currentCapacity = (tbRecompute t now).currentCapacity - 1) ∧
    (tbWaitAdmitIter t now = none → (tbAllowed t now).1 = false) := by
  refine ⟨?_, ?_, ?_, ?_⟩
  · unfold rwAllowed rwWaitAdmitIter
    dsimp only
    split
    · intro _
      exact ⟨rfl, rfl, rfl⟩
    · intro hfalse
      exact absurd hfalse (by simp)
  · unfold rwAllowed rwWaitAdmitIter
    dsimp only
    split
    · intro hnone
      exact absurd hnone (by simp)
    · intro _
      rfl
  · unfold tbAllowed tbWaitAdmitIter
    dsimp only
    split
    · intro _
      refine ⟨rfl, ?_, rfl⟩
      show (tbRecompute t now).allowedEvents + 1 = t.allowedEvents + 1
      rw [tbRecompute_allowedEvents]
    · intro hfalse
      exact absurd hfalse (by simp)
  · unfold tbAllowed tbWaitAdmitIter
    dsimp only
    split
    · intro hnone
      exact absurd hnone (by simp)
    · intro _
      rfl

/-- Witness for C6: fresh limiters of capacity 2, probed at time 0. -/
theorem claim_C6_witness :
    rwWaitAdmitIter (newRollingWindow 2 100) 0 = some (rwAllowed (newRollingWindow 2 100) 0).2 ∧
    tbWaitAdmitIter (newTokenBucket 2 100 0) 0 = some (tbAllowed (newTokenBucket 2 100 0) 0).2 := by
  constructor
  · exact ((claim_C6_allow_equals_wait_step (newRollingWindow 2 100)
      (newTokenBucket 2 100 0) 0).1 (by decide)).1
  · exact ((claim_C6_allow_equals_wait_step (newRollingWindow 2 100)
      (newTokenBucket 2 100 0) 0).2.2.1 (by decide)).1

theorem lbAllow_cases (s : LeakyBucket) (now : Int) :
    ((lbAllow s now).1 = true ↔ (s.currentCapacity = 0 ∧ s.leakRate ≤ now - s.lastLeak)) ∧
    ((lbAllow s now).1 = true →
      (lbAllow s now).2 = { s with
        currentCapacity := 0,
        lastLeak := now,
        allowedEvents := s.allowedEvents + 1 }) := by
  unfold lbAllow lbCanLeak lbLeak
  dsimp only
  split
  · rename_i hcond
    simp only [Bool.and_eq_true, decide_eq_true_eq] at hcond
    constructor
    · exact ⟨fun _ => hcond, fun _ => rfl⟩
    · intro _
      have hcap : (if s.currentCapacity - 1 < 0 then (0 : Int) else s.currentCapacity - 1) = 0 := by
        rw [if_pos (by omega)]
      rw [hcap]
  · rename_i hcond
    simp only [Bool.and_eq_true, decide_eq_true_eq] at hcond
    refine ⟨⟨fun hft => absurd hft (by simp), fun hc => absurd hc hcond⟩,
      fun hft => absurd hft (by simp)⟩

/-- C7: the leaky bucket's `Allow` admits exactly when the queue depth is
zero and at least one leak interval has elapsed since the last leak; a
successful `Allow` leaves the queue depth at zero (it never occupies a
queue slot); consequently two back-to-back successful `Allow` calls are
separated by at least `leakRate = duration / count` of wall time. -/
theorem claim_C7_leaky_allow_spacing (s : LeakyBucket) (now t2 : Int) :
    ((lbAllow s now).1 = true ↔
      (s.currentCapacity = 0 ∧ s.leakRate ≤ now - s.lastLeak)) ∧
    ((lbAllow s now).1 = true →
      (lbAllow s now).2.currentCapacity = 0 ∧ (lbAllow s now).2.lastLeak = now) ∧
    ((lbAllow s now).1 = true → (lbAllow (lbAllow s now).2 t2).1 = true →
      s.leakRate ≤ t2 - now) ∧
    (∀ count dur maxQ t0 : Int, (newLeakyBucket count dur maxQ t0).leakRate = dur / count) := by
  refine ⟨(lbAllow_cases s now).1, ?_, ?_, fun _ _ _ _ => rfl⟩
  · intro h1
    rw [(lbAllow_cases s now).2 h1]
    exact ⟨rfl, rfl⟩
  · intro h1 h2
    have hstate := (lbAllow_cases s now).2 h1
    have hc2 := (lbAllow_cases (lbAllow s now).2 t2).1.mp h2
    rw [hstate] at hc2
    exact hc2.2

/-- Witness for C7: a bucket of 5 per 1000ns; an `Allow` at time 0 succeeds,
so any back-to-back success at time 250 respects the 200ns leak interval. -/
theorem claim_C7_witness :
    ((lbAllow (newLeakyBucket 5 1000 3 0) 0).1 = true) ∧
    (lbAllow (newLeakyBucket 5 1000 3 0) 0).2.currentCapacity = 0 ∧
    ((newLeakyBucket 5 1000 3 0).leakRate
      ≤ 250 - 0) := by
  have h1 : (lbAllow (newLeakyBucket 5 1000 3 0) 0).1 = true := by decide
  have h2 : (lbAllow (lbAllow (newLeakyBucket 5 1000 3 0) 0).2 250).1 = true := by decide
  refine ⟨h1, ((claim_C7_leaky_allow_spacing (newLeakyBucket 5 1000 3 0) 0 250).2.1 h1).1,
    (claim_C7_leaky_allow_spacing (newLeakyBucket 5 1000 3 0) 0 250).2.2.1 h1 h2⟩

theorem bool_ne_true {b : Bool} (h : b = false) : ¬(b = true) := by
  intro hh
  rw [h] at hh
  exact Bool.false_ne_true hh

theorem rwConsume_success_state (s : RollingWindow) (i : Nat) (now : Int)
    (hcons : (s.reservations.getD i dRes).consumed = false)
    (hcanc : (s.reservations.getD i dRes).canceled = false)
    (hexp : resExpired (s.reservations.getD i dRes) now = false) :
    (rwConsume s i now).2 = { s with
      reservations := s.reservations.set i
        { s.reservations.getD i dRes with consumed := true, inMap := false },
      log := s.log ++ [now],
      allowedEvents := s.allowedEvents + 1 } := by
  unfold rwConsume
  dsimp only
  rw [if_neg (bool_ne_true hcons), if_neg (bool_ne_true hcanc), if_neg (bool_ne_true hexp)]

theorem tbConsume_success_state (t : TokenBucket) (i : Nat) (now : Int)
    (hcons : (t.reservations.getD i dRes).consumed = false)
    (hcanc : (t.reservations.getD i dRes).canceled = false)
    (hexp : resExpired (t.reservations.getD i dRes) now = false) :
    (tbConsume t i now).2 = { t with
      reservations := t.reservations.set i
        { t.reservations.getD i dRes with consumed := true, inMap := false },
      currentCapacity := t.currentCapacity - 1,
      allowedEvents := t.allowedEvents + 1,
      clock := now } := by
  unfold tbConsume
  dsimp only
  rw [if_neg (bool_ne_true hcons), if_neg (bool_ne_true hcanc), if_neg (bool_ne_true hexp)]

theorem lbConsumeStart_success_reservations (l : LeakyBucket) (i : Nat) (now : Int)
    (hcons : (l.reservations.getD i dRes).consumed = false)
    (hcanc : (l.reservations.getD i dRes).canceled = false)
    (hexp : resExpired (l.reservations.getD i dRes) now = false) :
    (lbConsumeStart l i now).2.reservations = l.reservations.set i
      { l.reservations.getD i dRes with consumed := true, inMap := false } := by
  unfold lbConsumeStart
  dsimp only
  rw [if_neg (bool_ne_true hcons), if_neg (bool_ne_true hcanc), if_neg (bool_ne_true hexp)]
  split <;> rfl

/-- C10: for every reservation type, `Cancel` is idempotent, `Cancel` on a
consumed reservation is a complete no-op on the limiter state, and after a
successful `Consume` a further `Cancel` changes nothing and leaves the
reservation with `consumed = true`, `canceled = false` — a consumed
reservation is never retroactively canceled or refunded. -/
theorem claim_C10_cancel_idempotent_noop (s : RollingWindow) (t : TokenBucket)
    (l : LeakyBucket) (i : Nat) (now : Int) :
    (rwCancel (rwCancel s i) i = rwCancel s i) ∧
    (tbCancel (tbCancel t i) i = tbCancel t i) ∧
    (lbCancel (lbCancel l i) i = lbCancel l i) ∧
    ((s.reservations.getD i dRes).consumed = true → rwCancel s i = s) ∧
    ((t.reservations.getD i dRes).consumed = true → tbCancel t i = t) ∧
    ((l.reservations.getD i dRes).consumed = true → lbCancel l i = l) ∧
    (i < s.reservations.length →
     (s.reservations.getD i dRes).consumed = false →
     (s.reservations.getD i dRes).canceled = false →
     resExpired (s.reservations.getD i dRes) now = false →
       rwCancel (rwConsume s i now).2 i = (rwConsume s i now).2 ∧
       ((rwConsume s i now).2.reservations.getD i dRes).consumed = true ∧
       ((rwConsume s i now).2.reservations.getD i dRes).canceled = false) ∧
    (i < t.reservations.length →
     (t.reservations.getD i dRes).consumed = false →
     (t.reservations.getD i dRes).canceled = false →
     resExpired (t.reservations.getD i dRes) now = false →
       tbCancel (tbConsume t i now).2 i = (tbConsume t i now).2 ∧
       ((tbConsume t i now).2.reservations.getD i dRes).consumed = true ∧
       ((tbConsume t i now).2.reservations.getD i dRes).canceled = false) ∧
    (i < l.reservations.length →
     (l.reservations.getD i dRes).consumed = false →
     (l.reservations.getD i dRes).canceled = false →
     resExpired (l.reservations.getD i dRes) now = false →
       lbCancel (lbConsumeStart l i now).2 i = (lbConsumeStart l i now).2 ∧
       ((lbConsumeStart l i now).2.reservations.getD i dRes).consumed = true ∧
       ((lbConsumeStart l i now).2.reservations.getD i dRes).canceled = false) := by
  refine ⟨?_, ?_, ?_, ?_, ?_, ?_, ?_, ?_, ?_⟩
  · unfold rwCancel
    dsimp only
    rw [cancelResAt_idem]
  · unfold tbCancel
    dsimp only
    rw [cancelResAt_idem]
  · unfold lbCancel
    dsimp only
    rw [cancelResAt_idem]
  · intro hc
    unfold rwCancel
    rw [cancelResAt_consumed _ _ hc]
  · intro hc
    unfold tbCancel
    rw [cancelResAt_consumed _ _ hc]
  · intro hc
    unfold lbCancel
    rw [cancelResAt_consumed _ _ hc]
  · intro hi hcons hcanc hexp
    have hstate := rwConsume_success_state s i now hcons hcanc hexp
    have hgd : (rwConsume s i now).2.reservations.getD i dRes
        = { s.reservations.getD i dRes with consumed := true, inMap := false } := by
      rw [hstate]
      exact getD_set_self _ i _ hi
    refine ⟨?_, by rw [hgd], by rw [hgd]; exact hcanc⟩
    unfold rwCancel
    rw [cancelResAt_consumed _ _ (by rw [hgd])]
  · intro hi hcons hcanc hexp
    have hstate := tbConsume_success_state t i now hcons hcanc hexp
    have hgd : (tbConsume t i now).2.reservations.getD i dRes
        = { t.reservations.getD i dRes with consumed := true, inMap := false } := by
      rw [hstate]
      exact getD_set_self _ i _ hi
    refine ⟨?_, by rw [hgd], by rw [hgd]; exact hcanc⟩
    unfold tbCancel
    rw [cancelResAt_consumed _ _ (by rw [hgd])]
  · intro hi hcons hcanc hexp
    have hres := lbConsumeStart_success_reservations l i now hcons hcanc hexp
    have hgd : (lbConsumeStart l i now).2.reservations.getD i dRes
        = { l.reservations.getD i dRes with consumed := true, inMap := false } := by
      rw [hres]
      exact getD_set_self _ i _ hi
    refine ⟨?_, by rw [hgd], by rw [hgd]; exact hcanc⟩
    unfold lbCancel
    rw [cancelResAt_consumed _ _ (by rw [hgd])]

/-- Witness for C10: one live reservation (TTL 50) in each limiter at time
0; its consume succeeds, after which cancel is a no-op. -/
theorem claim_C10_witness :
    rwCancel (rwConsume ⟨2, 100, 0, 0, [], [⟨some 50, false, false, true⟩]⟩ 0 0).2 0
      = (rwConsume ⟨2, 100, 0, 0, [], [⟨some 50, false, false, true⟩]⟩ 0 0).2 ∧
    tbCancel (tbConsume ⟨2, 2, 50, 0, 0, 0, 0, [⟨some 50, false, false, true⟩]⟩ 0 0).2 0
      = (tbConsume ⟨2, 2, 50, 0, 0, 0, 0, [⟨some 50, false, false, true⟩]⟩ 0 0).2 ∧
    lbCancel (lbConsumeStart ⟨3, 0, 200, 0, 0, -200, [⟨some 50, false, false, true⟩]⟩ 0 0).2 0
      = (lbConsumeStart ⟨3, 0, 200, 0, 0, -200, [⟨some 50, false, false, true⟩]⟩ 0 0).2 := by
  refine ⟨?_, ?_, ?_⟩
  · exact ((claim_C10_cancel_idempotent_noop ⟨2, 100, 0, 0, [], [⟨some 50, false, false, true⟩]⟩
      ⟨2, 2, 50, 0, 0, 0, 0, []⟩ ⟨3, 0, 200, 0, 0, -200, []⟩ 0 0).2.2.2.2.2.2.1
      (by decide) (by decide) (by decide) (by decide)).1
  · exact ((claim_C10_cancel_idempotent_noop ⟨2, 100, 0, 0, [], []⟩
      ⟨2, 2, 50, 0, 0, 0, 0, [⟨some 50, false, false, true⟩]⟩ ⟨3, 0, 200, 0, 0, -200, []⟩ 0
      0).2.2.2.2.2.2.2.1 (by decide) (by decide) (by decide) (by decide)).1
  · exact ((claim_C10_cancel_idempotent_noop ⟨2, 100, 0, 0, [], []⟩
      ⟨2, 2, 50, 0, 0, 0, 0, []⟩ ⟨3, 0, 200, 0, 0, -200, [⟨some 50, false, false, true⟩]⟩ 0
      0).2.2.2.2.2.2.2.2 (by decide) (by decide) (by decide) (by decide)).1

theorem rwConsume_already (s : RollingWindow) (i : Nat) (now : Int)
    (hc : (s.reservations.getD i dRes).consumed = true) :
    rwConsume s i now = (some ConsumeErr.alreadyConsumed, s) := by
  unfold rwConsume
  dsimp only
  rw [if_pos hc]

theorem rwConsume_canceled (s : RollingWindow) (i : Nat) (now : Int)
    (hcons : (s.reservations.getD i dRes).consumed = false)
    (hcanc : (s.reservations.getD i dRes).canceled = true) :
    rwConsume s i now = (some ConsumeErr.wasCanceled, s) := by
  unfold rwConsume
  dsimp only
  rw [if_neg (bool_ne_true hcons), if_pos hcanc]

theorem rwConsume_expired_fst (s : RollingWindow) (i : Nat) (now : Int)
    (hcons : (s.reservations.getD i dRes).consumed = false)
    (hcanc : (s.reservations.getD i dRes).canceled = false)
    (hexp : resExpired (s.reservations.getD i dRes) now = true) :
    (rwConsume s i now).1 = some ConsumeErr.expired := by
  unfold rwConsume
  dsimp only
  rw [if_neg (bool_ne_true hcons), if_neg (bool_ne_true hcanc), if_pos hexp]

theorem tbConsume_already (t : TokenBucket) (i : Nat) (now : Int)
    (hc : (t.reservations.getD i dRes).consumed = true) :
    tbConsume t i now = (some ConsumeErr.alreadyConsumed, t) := by
  unfold tbConsume
  dsimp only
  rw [if_pos hc]

theorem tbConsume_canceled (t : TokenBucket) (i : Nat) (now : Int)
    (hcons : (t.reservations.getD i dRes).consumed = false)
    (hcanc : (t.reservations.getD i dRes).canceled = true) :
    tbConsume t i now = (some ConsumeErr.wasCanceled, t) := by
  unfold tbConsume
  dsimp only
  rw [if_neg (bool_ne_true hcons), if_pos hcanc]

theorem tbConsume_expired_fst (t : TokenBucket) (i : Nat) (now : Int)
    (hcons : (t.reservations.getD i dRes).consumed = false)
    (hcanc : (t.reservations.getD i dRes).canceled = false)
    (hexp : resExpired (t.reservations.getD i dRes) now = true) :
    (tbConsume t i now).1 = some ConsumeErr.expired := by
  unfold tbConsume
  dsimp only
  rw [if_neg (bool_ne_true hcons), if_neg (bool_ne_true hcanc), if_pos hexp]

theorem rwConsume_success_fst (s : RollingWindow) (i : Nat) (now : Int)
    (hcons : (s.reservations.getD i dRes).consumed = false)
    (hcanc : (s.reservations.getD i dRes).canceled = false)
    (hexp : resExpired (s.reservations.getD i dRes) now = false) :
    (rwConsume s i now).1 = none := by
  unfold rwConsume
  dsimp only
  rw [if_neg (bool_ne_true hcons), if_neg (bool_ne_true hcanc), if_neg (bool_ne_true hexp)]

theorem tbConsume_success_fst (t : TokenBucket) (i : Nat) (now : Int)
    (hcons : (t.reservations.getD i dRes).consumed = false)
    (hcanc : (t.reservations.getD i dRes).canceled = false)
    (hexp : resExpired (t.reservations.getD i dRes) now = false) :
    (tbConsume t i now).1 = none := by
  unfold tbConsume
  dsimp only
  rw [if_neg (bool_ne_true hcons), if_neg (bool_ne_true hcanc), if_neg (bool_ne_true hexp)]

/-- C3: every reservation leaves the pending state at most once.  For the
sliding-window and token-bucket reservations: the first `Consume` of a
pending, unexpired, uncanceled reservation succeeds and marks it consumed;
a second `Consume` fails with AlreadyConsumed; `Consume` of a consumed
reservation fails with AlreadyConsumed and changes nothing; `Consume` after
`Cancel` fails with Canceled; `Consume` once the TTL has elapsed fails with
Expired; and in every reachable limiter state no reservation has both the
consumed and canceled flags set. -/
theorem claim_C3_reservation_lifecycle (s : RollingWindow) (t : TokenBucket) (i : Nat)
    (now now2 : Int) :
    (i < s.reservations.length →
     (s.reservations.getD i dRes).consumed = false →
     (s.reservations.getD i dRes).canceled = false →
     resExpired (s.reservations.getD i dRes) now = false →
       (rwConsume s i now).1 = none ∧
       ((rwConsume s i now).2.reservations.getD i dRes).consumed = true ∧
       (rwConsume (rwConsume s i now).2 i now2).1 = some ConsumeErr.alreadyConsumed) ∧
    ((s.reservations.getD i dRes).consumed = true →
       rwConsume s i now = (some ConsumeErr.alreadyConsumed, s)) ∧
    ((s.reservations.getD i dRes).consumed = false →
     (s.reservations.getD i dRes).canceled = true →
       rwConsume s i now = (some ConsumeErr.wasCanceled, s)) ∧
    ((s.reservations.getD i dRes).consumed = false →
     (s.reservations.getD i dRes).canceled = false →
     resExpired (s.reservations.getD i dRes) now = true →
       (rwConsume s i now).1 = some ConsumeErr.expired) ∧
    (i < s.reservations.length →
     (s.reservations.getD i dRes).consumed = false →
       (rwConsume (rwCancel s i) i now).1 = some ConsumeErr.wasCanceled) ∧
    (i < t.reservations.length →
     (t.reservations.getD i dRes).consumed = false →
     (t.reservations.getD i dRes).canceled = false →
     resExpired (t.reservations.getD i dRes) now = false →
       (tbConsume t i now).1 = none ∧
       ((tbConsume t i now).2.reservations.getD i dRes).consumed = true ∧
       (tbConsume (tbConsume t i now).2 i now2).1 = some ConsumeErr.alreadyConsumed) ∧
    ((t.reservations.getD i dRes).consumed = true →
       tbConsume t i now = (some ConsumeErr.alreadyConsumed, t)) ∧
    ((t.reservations.getD i dRes).consumed = false →
     (t.reservations.getD i dRes).canceled = true →
       tbConsume t i now = (some ConsumeErr.wasCanceled, t)) ∧
    ((t.reservations.getD i dRes).consumed = false →
     (t.reservations.getD i dRes).canceled = false →
     resExpired (t.reservations.getD i dRes) now = true →
       (tbConsume t i now).1 = some ConsumeErr.expired) ∧
    (i < t.reservations.length →
     (t.reservations.getD i dRes).consumed = false →
       (tbConsume (tbCancel t i) i now).1 = some ConsumeErr.wasCanceled) ∧
    (RWReach s → ∀ r ∈ s.reservations, ¬(r.consumed = true ∧ r.canceled = true)) ∧
    (TBReach t → ∀ r ∈ t.reservations, ¬(r.consumed = true ∧ r.canceled = true)) := by
  refine ⟨?_, fun hc => rwConsume_already s i now hc,
    fun hcons hcanc => rwConsume_canceled s i now hcons hcanc,
    fun hcons hcanc hexp => rwConsume_expired_fst s i now hcons hcanc hexp, ?_,
    ?_, fun hc => tbConsume_already t i now hc,
    fun hcons hcanc => tbConsume_canceled t i now hcons hcanc,
    fun hcons hcanc hexp => tbConsume_expired_fst t i now hcons hcanc hexp, ?_, ?_, ?_⟩
  · intro hi hcons hcanc hexp
    have hgd : (rwConsume s i now).2.reservations.getD i dRes
        = { s.reservations.getD i dRes with consumed := true, inMap := false } := by
      rw [rwConsume_success_state s i now hcons hcanc hexp]
      exact getD_set_self _ i _ hi
    refine ⟨rwConsume_success_fst s i now hcons hcanc hexp, by rw [hgd], ?_⟩
    rw [rwConsume_already (rwConsume s i now).2 i now2 (by rw [hgd])]
  · intro hi hcons
    have hres : (rwCancel s i).reservations = s.reservations.set i
        { s.reservations.getD i dRes with canceled := true, inMap := false } := by
      unfold rwCancel cancelResAt
      dsimp only
      rw [if_neg (bool_ne_true hcons)]
    have hgd : (rwCancel s i).reservations.getD i dRes
        = { s.reservations.getD i dRes with canceled := true, inMap := false } := by
      rw [hres]
      exact getD_set_self _ i _ hi
    rw [rwConsume_canceled (rwCancel s i) i now (by rw [hgd]; exact hcons) (by rw [hgd])]
  · intro hi hcons hcanc hexp
    have hgd : (tbConsume t i now).2.reservations.getD i dRes
        = { t.reservations.getD i dRes with consumed := true, inMap := false } := by
      rw [tbConsume_success_state t i now hcons hcanc hexp]
      exact getD_set_self _ i _ hi
    refine ⟨tbConsume_success_fst t i now hcons hcanc hexp, by rw [hgd], ?_⟩
    rw [tbConsume_already (tbConsume t i now).2 i now2 (by rw [hgd])]
  · intro hi hcons
    have hres : (tbCancel t i).reservations = t.reservations.set i
        { t.reservations.getD i dRes with canceled := true, inMap := false } := by
      unfold tbCancel cancelResAt
      dsimp only
      rw [if_neg (bool_ne_true hcons)]
    have hgd : (tbCancel t i).reservations.getD i dRes
        = { t.reservations.getD i dRes with canceled := true, inMap := false } := by
      rw [hres]
      exact getD_set_self _ i _ hi
    rw [tbConsume_canceled (tbCancel t i) i now (by rw [hgd]; exact hcons) (by rw [hgd])]
  · intro h r hr
    exact (rwReach_flagsInv h r hr).1
  · intro h r hr
    exact ((tbReach_inv h).resOK r hr).1.1

/-- Witness for C3: a live reservation (TTL 50) consumed at time 0 in each
limiter, together with the flag invariant at the freshly constructed
limiters. -/
theorem claim_C3_witness :
    (rwConsume ⟨2, 100, 0, 0, [], [⟨some 50, false, false, true⟩]⟩ 0 0).1 = none ∧
    (rwConsume (rwConsume ⟨2, 100, 0, 0, [], [⟨some 50, false, false, true⟩]⟩ 0 0).2 0 3).1
      = some ConsumeErr.alreadyConsumed ∧
    (tbConsume ⟨2, 2, 50, 0, 0, 0, 0, [⟨some 50, false, false, true⟩]⟩ 0 0).1 = none ∧
    (∀ r ∈ (newRollingWindow 1 100).reservations, ¬(r.consumed = true ∧ r.canceled = true)) ∧
    (∀ r ∈ (newTokenBucket 1 100 0).reservations, ¬(r.consumed = true ∧ r.canceled = true)) := by
  have h := claim_C3_reservation_lifecycle ⟨2, 100, 0, 0, [], [⟨some 50, false, false, true⟩]⟩
    ⟨2, 2, 50, 0, 0, 0, 0, [⟨some 50, false, false, true⟩]⟩ 0 0 3
  have h2 := claim_C3_reservation_lifecycle (newRollingWindow 1 100) (newTokenBucket 1 100 0)
    0 0 0
  refine ⟨(h.1 (by decide) (by decide) (by decide) (by decide)).1,
    (h.1 (by decide) (by decide) (by decide) (by decide)).2.2,
    (h.2.2.2.2.2.1 (by decide) (by decide) (by decide) (by decide)).1,
    h2.2.2.2.2.2.2.2.2.2.2.1 (RWReach.init 1 100 (by decide) (by decide)),
    h2.2.2.2.2.2.2.2.2.2.2.2 (TBReach.init 1 100 0 (by decide) (by decide))⟩

theorem rwRecompute_deniedEvents (s : RollingWindow) (now : Int) :
    (rwRecompute s now).deniedEvents = s.deniedEvents := rfl

theorem rwConsume_denied (s : RollingWindow) (i : Nat) (now : Int) :
    (rwConsume s i now).2.deniedEvents = s.deniedEvents := by
  unfold rwConsume
  dsimp only
  split
  · rfl
  · split
    · rfl
    · split <;> rfl

theorem tbConsume_denied (t : TokenBucket) (i : Nat) (now : Int) :
    (tbConsume t i now).2.deniedEvents = t.deniedEvents := by
  unfold tbConsume
  dsimp only
  split
  · rfl
  · split
    · rfl
    · split <;> rfl

theorem lbConsumeStart_denied (l : LeakyBucket) (i : Nat) (now : Int) :
    (lbConsumeStart l i now).2.deniedEvents = l.deniedEvents := by
  unfold lbConsumeStart
  dsimp only
  split
  · rfl
  · split
    · rfl
    · split
      · rfl
      · split <;> rfl

theorem lbConsumeWaitIter_denied (l : LeakyBucket) (dl : Option Int) (tC tW : Int) :
    (lbConsumeWaitIter l dl tC tW).2.deniedEvents = l.deniedEvents := by
  unfold lbConsumeWaitIter
  cases dl with
  | none =>
      dsimp only
      split <;> rfl
  | some d =>
      dsimp only
      split
      · rfl
      · split <;> rfl

/-- C1 (amended): every denial outcome of `Allow`, the context-cancellation
branch of `WaitContext` / `ReserveContext` (also reached by `WaitTimeout`),
and the leaky bucket's immediate queue-full rejections increment the denied
counter by exactly one (and a successful `Allow` leaves it unchanged), but
every erroring `Reservation.Consume` call leaves the denied counter
unchanged — contrary to the original claim, Consume error paths do not
count as denials. -/
theorem claim_C1_denied_increment (s : RollingWindow) (t : TokenBucket) (l : LeakyBucket)
    (i : Nat) (now : Int) (ttl : Option Int) (e : ConsumeErr)
    (dl : Option Int) (tC tW : Int) :
    ((rwAllowed s now).1 = false →
      (rwAllowed s now).2.deniedEvents = s.deniedEvents + 1) ∧
    ((rwAllowed s now).1 = true →
      (rwAllowed s now).2.deniedEvents = s.deniedEvents) ∧
    ((rwCtxDone s).deniedEvents = s.deniedEvents + 1) ∧
    ((rwConsume s i now).1 = some e →
      (rwConsume s i now).2.deniedEvents = s.deniedEvents) ∧
    ((tbAllowed t now).1 = false →
      (tbAllowed t now).2.deniedEvents = t.deniedEvents + 1) ∧
    ((tbAllowed t now).1 = true →
      (tbAllowed t now).2.deniedEvents = t.deniedEvents) ∧
    ((tbCtxDone t).deniedEvents = t.deniedEvents + 1) ∧
    ((tbConsume t i now).1 = some e →
      (tbConsume t i now).2.deniedEvents = t.deniedEvents) ∧
    ((lbWaitStart l).1 = true → (lbWaitStart l).2.deniedEvents = l.deniedEvents + 1) ∧
    ((lbWaitCtxDone l).deniedEvents = l.deniedEvents + 1) ∧
    ((lbAllow l now).1 = false → (lbAllow l now).2.deniedEvents = l.deniedEvents + 1) ∧
    ((lbReserveTry l now ttl).1 = false →
      (lbReserveTry l now ttl).2.deniedEvents = l.deniedEvents + 1) ∧
    ((lbConsumeStart l i now).1 = LBConsumeStart.err e →
      (lbConsumeStart l i now).2.deniedEvents = l.deniedEvents) ∧
    ((lbConsumeWaitIter l dl tC tW).1 = LBWaitOutcome.expiredWaiting →
      (lbConsumeWaitIter l dl tC tW).2.deniedEvents = l.deniedEvents) := by
  refine ⟨?_, ?_, rfl, fun _ => rwConsume_denied s i now, ?_, ?_, rfl,
    fun _ => tbConsume_denied t i now, ?_, rfl, ?_, ?_,
    fun _ => lbConsumeStart_denied l i now, fun _ => lbConsumeWaitIter_denied l dl tC tW⟩
  · unfold rwAllowed
    dsimp only
    split
    · intro h
      exact absurd h (by simp)
    · intro _
      rfl
  · unfold rwAllowed
    dsimp only
    split
    · intro _
      rfl
    · intro h
      exact absurd h (by simp)
  · unfold tbAllowed
    dsimp only
    split
    · intro h
      exact absurd h (by simp)
    · intro _
      show (tbRecompute t now).deniedEvents + 1 = t.deniedEvents + 1
      rw [tbRecompute_deniedEvents]
  · unfold tbAllowed
    dsimp only
    split
    · intro _
      exact tbRecompute_deniedEvents t now
    · intro h
      exact absurd h (by simp)
  · unfold lbWaitStart
    split
    · intro _
      rfl
    · intro h
      exact absurd h (by simp)
  · unfold lbAllow
    dsimp only
    split
    · intro h
      exact absurd h (by simp)
    · intro _
      rfl
  · unfold lbReserveTry
    dsimp only
    split
    · intro _
      rfl
    · intro h
      exact absurd h (by simp)

/-- Counterexample refuting C1 as stated: a concrete reachable run of the
sliding window (capacity 1, window 100): reserve at time 0, consume it
(success), then consume again at time 5.  The second Consume returns the
AlreadyConsumed error, yet the denied counter is NOT one greater than
before the call — it is unchanged. -/
theorem claim_C1_counterexample :
    RWReach (rwConsume (rwReserveIter (newRollingWindow 1 100) 0 none).2 0 0).2 ∧
    (rwConsume (rwConsume (rwReserveIter (newRollingWindow 1 100) 0 none).2 0 0).2 0 5).1
      = some ConsumeErr.alreadyConsumed ∧
    ¬((rwConsume (rwConsume (rwReserveIter (newRollingWindow 1 100) 0 none).2 0 0).2 0 5).2.deniedEvents
      = (rwConsume (rwReserveIter (newRollingWindow 1 100) 0 none).2 0 0).2.deniedEvents + 1) := by
  refine ⟨RWReach.consumeStep _ 0 0
    (RWReach.reserveStep _ 0 none (RWReach.init 1 100 (by decide) (by decide))) (by decide),
    by decide, by decide⟩

/-- Witness for the amended C1: a full sliding window denies an `Allow` at
time 0 and counts it; an already-consumed reservation errors and does not. -/
theorem claim_C1_witness :
    (rwAllowed ⟨1, 100, 1, 0, [0], []⟩ 0).2.deniedEvents = 0 + 1 ∧
    (rwConsume ⟨1, 100, 1, 0, [0], [⟨none, true, false, false⟩]⟩ 0 0).2.deniedEvents = 0 := by
  have h := claim_C1_denied_increment ⟨1, 100, 1, 0, [0], []⟩
    ⟨1, 1, 100, 0, 0, 0, 0, []⟩ ⟨1, 0, 100, 0, 0, 0, []⟩ 0 0 none ConsumeErr.alreadyConsumed
    none 0 0
  have h2 := claim_C1_denied_increment ⟨1, 100, 1, 0, [0], [⟨none, true, false, false⟩]⟩
    ⟨1, 1, 100, 0, 0, 0, 0, []⟩ ⟨1, 0, 100, 0, 0, 0, []⟩ 0 0 none ConsumeErr.alreadyConsumed
    none 0 0
  exact ⟨h.1 (by decide), h2.2.2.2.1 (by decide)⟩

/-- C9 (amended): in the sliding-window deny/wait path, when there are no
pending reservations the pruned log is necessarily non-empty and the
recomputed wait duration equals oldest-log-entry + window − now; but when
pending reservations occupy capacity the pruned log can be empty on the
deny path, in which case the full-window fallback is used. -/
theorem claim_C9_deny_wait_duration (s : RollingWindow) (now : Int)
    (hmax : 0 < s.maxEventCount)
    (hdeny : ¬(((rwRecompute s now).log.length : Int)
      + (pendingCount (rwRecompute s now).reservations : Int) < s.maxEventCount)) :
    (pendingCount (rwRecompute s now).reservations = 0 →
      ∃ t rest, (rwRecompute s now).log = t :: rest ∧
        rwDenyWaitDuration (rwRecompute s now) now = t + s.rateDuration - now) ∧
    ((rwRecompute s now).log = [] →
      rwDenyWaitDuration (rwRecompute s now) now = s.rateDuration) := by
  constructor
  · intro hpend
    cases hlog : (rwRecompute s now).log with
    | nil =>
        exfalso
        rw [hlog, hpend] at hdeny
        simp at hdeny
        omega
    | cons tt rest =>
        refine ⟨tt, rest, rfl, ?_⟩
        unfold rwDenyWaitDuration
        rw [hlog]
        exact rfl
  · intro hlog
    unfold rwDenyWaitDuration
    rw [hlog]
    exact rfl

/-- Counterexample refuting C9 as stated: a reachable sliding window of
capacity 1 with one pending (never-expiring) reservation and an empty log.
The admission check fails at time 0 while the pruned log is empty, and the
wait duration is the full-window fallback. -/
theorem claim_C9_counterexample :
    RWReach (rwReserveIter (newRollingWindow 1 100) 0 none).2 ∧
    ¬((((rwRecompute (rwReserveIter (newRollingWindow 1 100) 0 none).2 0).log.length : Int)
      + (pendingCount (rwRecompute (rwReserveIter (newRollingWindow 1 100) 0 none).2 0).reservations : Int))
      < (rwReserveIter (newRollingWindow 1 100) 0 none).2.maxEventCount) ∧
    (rwRecompute (rwReserveIter (newRollingWindow 1 100) 0 none).2 0).log = [] ∧
    rwDenyWaitDuration (rwRecompute (rwReserveIter (newRollingWindow 1 100) 0 none).2 0) 0
      = (rwReserveIter (newRollingWindow 1 100) 0 none).2.rateDuration := by
  refine ⟨RWReach.reserveStep _ 0 none (RWReach.init 1 100 (by decide) (by decide)),
    by decide, by decide, by decide⟩

/-- Witness for the amended C9: a full window (capacity 1, one log entry at
time 0, no pending reservations) denies at time 0 and the wait duration is
oldest + window − now. -/
theorem claim_C9_witness :
    ∃ t rest, (rwRecompute ⟨1, 100, 0, 0, [0], []⟩ 0).log = t :: rest ∧
      rwDenyWaitDuration (rwRecompute ⟨1, 100, 0, 0, [0], []⟩ 0) 0 = t + 100 - 0 := by
  exact (claim_C9_deny_wait_duration ⟨1, 100, 0, 0, [0], []⟩ 0 (by decide) (by decide)).1
    (by decide)

/-- C8: in the leaky-bucket reservation path, a live reservation whose
`Consume` cannot leak immediately occupies a queue slot
(`currentCapacity + 1`); when the wait loop then observes the deadline
passed it returns the "reservation expired while waiting to leak" error
with the state unchanged — the occupied queue slot is not decremented on
that error path, and `Cancel` (the only other release path) is a no-op on
the now-consumed reservation, so the final state permanently differs from
the pre-`Consume` state by one held queue slot. -/
theorem claim_C8_leaky_expired_slot_kept (l : LeakyBucket) (i : Nat) (now e tC tW : Int)
    (hi : i < l.reservations.length)
    (hcons : (l.reservations.getD i dRes).consumed = false)
    (hcanc : (l.reservations.getD i dRes).canceled = false)
    (hexp : (l.reservations.getD i dRes).expiresAt = some e)
    (hlive : ¬(e < now))
    (hwait : ¬(l.leakRate ≤ now - l.lastLeak))
    (hdl : e ≤ tC) :
    (lbConsumeStart l i now).1 = LBConsumeStart.waiting ∧
    (lbConsumeStart l i now).2.currentCapacity = l.currentCapacity + 1 ∧
    lbConsumeWaitIter (lbConsumeStart l i now).2 (some e) tC tW
      = (LBWaitOutcome.expiredWaiting, (lbConsumeStart l i now).2) ∧
    (lbConsumeWaitIter (lbConsumeStart l i now).2 (some e) tC tW).2.currentCapacity
      = l.currentCapacity + 1 ∧
    lbCancel (lbConsumeStart l i now).2 i = (lbConsumeStart l i now).2 := by
  have hexpf : resExpired (l.reservations.getD i dRes) now = false := by
    unfold resExpired
    rw [hexp]
    exact decide_eq_false hlive
  have hstate : lbConsumeStart l i now = (LBConsumeStart.waiting, { l with
      reservations := l.reservations.set i
        { l.reservations.getD i dRes with consumed := true, inMap := false },
      currentCapacity := l.currentCapacity + 1 }) := by
    unfold lbConsumeStart
    dsimp only
    rw [if_neg (bool_ne_true hcons), if_neg (bool_ne_true hcanc), if_neg (bool_ne_true hexpf)]
    rw [if_neg (show ¬(lbCanLeak { l with
        reservations := l.reservations.set i
          { l.reservations.getD i dRes with consumed := true, inMap := false },
        currentCapacity := l.currentCapacity + 1 } now = true) by
      simp only [lbCanLeak, decide_eq_true_eq]
      exact hwait)]
  have hiter : lbConsumeWaitIter (lbConsumeStart l i now).2 (some e) tC tW
      = (LBWaitOutcome.expiredWaiting, (lbConsumeStart l i now).2) := by
    unfold lbConsumeWaitIter
    dsimp only
    rw [if_pos (by omega : e - tC ≤ 0)]
  have hgd : (lbConsumeStart l i now).2.reservations.getD i dRes
      = { l.reservations.getD i dRes with consumed := true, inMap := false } := by
    rw [hstate]
    exact getD_set_self _ i _ hi
  refine ⟨by rw [hstate], by rw [hstate], hiter, by rw [hiter]; rw [hstate], ?_⟩
  unfold lbCancel
  rw [cancelResAt_consumed _ _ (by rw [hgd])]

/-- Witness for C8: leaky bucket with leak interval 200, last leak at time
0, one pending reservation expiring at 50; `Consume` at time 10 queues it,
and the loop check at time 60 reports expired-while-waiting with the queue
slot still held. -/
theorem claim_C8_witness :
    (lbConsumeStart ⟨3, 0, 200, 0, 0, 0, [⟨some 50, false, false, true⟩]⟩ 0 10).1
      = LBConsumeStart.waiting ∧
    (lbConsumeStart ⟨3, 0, 200, 0, 0, 0, [⟨some 50, false, false, true⟩]⟩ 0 10).2.currentCapacity
      = 0 + 1 ∧
    (lbConsumeWaitIter
      (lbConsumeStart ⟨3, 0, 200, 0, 0, 0, [⟨some 50, false, false, true⟩]⟩ 0 10).2
      (some 50) 60 70).2.currentCapacity = 0 + 1 := by
  have h := claim_C8_leaky_expired_slot_kept ⟨3, 0, 200, 0, 0, 0, [⟨some 50, false, false, true⟩]⟩
    0 10 50 60 70 (by decide) (by decide) (by decide) (by decide) (by decide) (by decide)
    (by decide)
  exact ⟨h.1, h.2.1, h.2.2.2.1⟩

theorem cancelAllRes_getD (l : List ResState) (i : Nat) (h : i < l.length) :
    (cancelAllRes l).getD i dRes
      = if (l.getD i dRes).inMap then
          { l.getD i dRes with canceled := true, inMap := false }
        else l.getD i dRes := by
  induction l generalizing i with
  | nil => simp at h
  | cons r lr ih =>
      cases i with
      | zero => rfl
      | succ n =>
          simp only [cancelAllRes, List.map_cons, List.getD_cons_succ]
          exact ih n (by simpa using h)

theorem tbClearRefill_cap (t : TokenBucket) (now now' : Int) (htr : 0 < t.refillRate)
    (hn : now ≤ now') :
    (tbRefill (tbClear t now) now').currentCapacity = t.maxCapacity := by
  have hk : 0 ≤ (now' - now) / t.refillRate := Int.ediv_nonneg (by omega) (le_of_lt htr)
  unfold tbClear tbRefill
  dsimp only
  split
  · rfl
  · split
    · rfl
    · rename_i h1 h2
      exfalso
      omega

theorem lbConsumeStart_already (l : LeakyBucket) (i : Nat) (now : Int)
    (hc : (l.reservations.getD i dRes).consumed = true) :
    lbConsumeStart l i now = (LBConsumeStart.err ConsumeErr.alreadyConsumed, l) := by
  unfold lbConsumeStart
  dsimp only
  rw [if_pos hc]

theorem lbConsumeStart_canceled (l : LeakyBucket) (i : Nat) (now : Int)
    (hcons : (l.reservations.getD i dRes).consumed = false)
    (hcanc : (l.reservations.getD i dRes).canceled = true) :
    lbConsumeStart l i now = (LBConsumeStart.err ConsumeErr.wasCanceled, l) := by
  unfold lbConsumeStart
  dsimp only
  rw [if_neg (bool_ne_true hcons), if_pos hcanc]

/-- C4: for every strategy, `Clear()` resets the time-derived state and
capacity to their initial values, flips every pending reservation to
canceled (so a later `Consume` on it errors), leaves the allowed and denied
counters unchanged, and immediately afterwards `Stats().NextAllowedTime`
reads as the current time and a subsequent `Allow()` succeeds regardless of
prior exhaustion. -/
theorem claim_C4_clear (s : RollingWindow) (t : TokenBucket) (l : LeakyBucket)
    (now now' : Int) (hs : 0 < s.maxEventCount) (ht : 0 < t.maxCapacity)
    (htr : 0 < t.refillRate) (hn : now ≤ now') :
    ((rwClear s).allowedEvents = s.allowedEvents ∧
     (rwClear s).deniedEvents = s.deniedEvents) ∧
    ((tbClear t now).allowedEvents = t.allowedEvents ∧
     (tbClear t now).deniedEvents = t.deniedEvents) ∧
    ((lbClear l now).allowedEvents = l.allowedEvents ∧
     (lbClear l now).deniedEvents = l.deniedEvents) ∧
    ((rwClear s).log = [] ∧
     (tbClear t now).currentCapacity = t.maxCapacity ∧
     (tbClear t now).lastRefill = now ∧
     (lbClear l now).currentCapacity = 0 ∧
     (lbClear l now).lastLeak = now - l.leakRate) ∧
    (∀ j, j < s.reservations.length → (s.reservations.getD j dRes).inMap = true →
      ((rwClear s).reservations.getD j dRes).canceled = true ∧
      (rwConsume (rwClear s) j now').1.isSome = true) ∧
    (∀ j, j < t.reservations.length → (t.reservations.getD j dRes).inMap = true →
      ((tbClear t now).reservations.getD j dRes).canceled = true ∧
      (tbConsume (tbClear t now) j now').1.isSome = true) ∧
    (∀ j, j < l.reservations.length → (l.reservations.getD j dRes).inMap = true →
      ((lbClear l now).reservations.getD j dRes).canceled = true ∧
      (∃ e, (lbConsumeStart (lbClear l now) j now').1 = LBConsumeStart.err e)) ∧
    (rwStats (rwClear s) now').nextAllowedTime = now' ∧
    (tbStats (tbClear t now) now').1.nextAllowedTime = now' ∧
    (lbStats (lbClear l now) now').nextAllowedTime = now' ∧
    (rwAllowed (rwClear s) now').1 = true ∧
    (tbAllowed (tbClear t now) now').1 = true ∧
    (lbAllow (lbClear l now) now').1 = true := by
  refine ⟨⟨rfl, rfl⟩, ⟨rfl, rfl⟩, ⟨rfl, rfl⟩, ⟨rfl, rfl, rfl, rfl, rfl⟩,
    ?_, ?_, ?_, rfl, ?_, ?_, ?_, ?_, ?_⟩
  · intro j hj hin
    have hgdC : (rwClear s).reservations.getD j dRes
        = { s.reservations.getD j dRes with canceled := true, inMap := false } := by
      show (cancelAllRes s.reservations).getD j dRes = _
      rw [cancelAllRes_getD s.reservations j hj, if_pos hin]
    refine ⟨by rw [hgdC], ?_⟩
    by_cases hc : (s.reservations.getD j dRes).consumed = true
    · rw [rwConsume_already (rwClear s) j now' (by rw [hgdC]; exact hc)]
      rfl
    · simp only [Bool.not_eq_true] at hc
      rw [rwConsume_canceled (rwClear s) j now' (by rw [hgdC]; exact hc) (by rw [hgdC])]
      rfl
  · intro j hj hin
    have hgdC : (tbClear t now).reservations.getD j dRes
        = { t.reservations.getD j dRes with canceled := true, inMap := false } := by
      show (cancelAllRes t.reservations).getD j dRes = _
      rw [cancelAllRes_getD t.reservations j hj, if_pos hin]
    refine ⟨by rw [hgdC], ?_⟩
    by_cases hc : (t.reservations.getD j dRes).consumed = true
    · rw [tbConsume_already (tbClear t now) j now' (by rw [hgdC]; exact hc)]
      rfl
    · simp only [Bool.not_eq_true] at hc
      rw [tbConsume_canceled (tbClear t now) j now' (by rw [hgdC]; exact hc) (by rw [hgdC])]
      rfl
  · intro j hj hin
    have hgdC : (lbClear l now).reservations.getD j dRes
        = { l.reservations.getD j dRes with canceled := true, inMap := false } := by
      show (cancelAllRes l.reservations).getD j dRes = _
      rw [cancelAllRes_getD l.reservations j hj, if_pos hin]
    refine ⟨by rw [hgdC], ?_⟩
    by_cases hc : (l.reservations.getD j dRes).consumed = true
    · exact ⟨ConsumeErr.alreadyConsumed,
        by rw [lbConsumeStart_already (lbClear l now) j now' (by rw [hgdC]; exact hc)]⟩
    · simp only [Bool.not_eq_true] at hc
      exact ⟨ConsumeErr.wasCanceled,
        by rw [lbConsumeStart_canceled (lbClear l now) j now' (by rw [hgdC]; exact hc)
          (by rw [hgdC])]⟩
  · have hcap := tbClearRefill_cap t now now' htr hn
    unfold tbStats
    dsimp only
    rw [if_neg (show ¬((tbRefill (tbClear t now) now').currentCapacity = 0) by
      rw [hcap]; omega)]
  · unfold lbStats
    dsimp only
    rw [if_neg (show ¬((0 : Int) < (lbClear l now).currentCapacity) from by
      show ¬((0 : Int) < 0)
      omega)]
  · have h1 : (rwRecompute (rwClear s) now').log = [] := rfl
    have h2 : pendingCount (rwRecompute (rwClear s) now').reservations = 0 :=
      pendingCount_cleanup_cancelAllRes s.reservations now'
    have h3 : (rwRecompute (rwClear s) now').maxEventCount = s.maxEventCount := rfl
    unfold rwAllowed
    dsimp only
    rw [if_pos (by rw [h1, h2, h3]; simpa using hs)]
  · have hcap2 : (tbRecompute (tbClear t now) now').currentCapacity = t.maxCapacity := by
      unfold tbRecompute
      dsimp only
      exact tbClearRefill_cap t now now' htr hn
    have hpend : pendingCount (tbRecompute (tbClear t now) now').reservations = 0 := by
      unfold tbRecompute
      dsimp only
      rw [tbRefill_reservations]
      exact pendingCount_cleanup_cancelAllRes t.reservations now'
    unfold tbAllowed
    dsimp only
    rw [if_pos (by rw [hcap2, hpend]; simpa using ht)]
  · apply (lbAllow_cases (lbClear l now) now').1.mpr
    refine ⟨rfl, ?_⟩
    show l.leakRate ≤ now' - (now - l.leakRate)
    omega

/-- Witness for C4: exhausted limiters (full log / zero tokens / full
queue), each with one pending reservation, cleared at time 10 and probed at
time 15. -/
theorem claim_C4_witness :
    (rwAllowed (rwClear ⟨1, 100, 4, 2, [5], [⟨none, false, false, true⟩]⟩) 15).1 = true ∧
    (tbAllowed (tbClear ⟨1, 0, 100, 4, 2, 0, 5, [⟨none, false, false, true⟩]⟩ 10) 15).1 = true ∧
    (lbAllow (lbClear ⟨1, 1, 100, 4, 2, 5, [⟨none, false, false, true⟩]⟩ 10) 15).1 = true ∧
    ((rwClear ⟨1, 100, 4, 2, [5], [⟨none, false, false, true⟩]⟩).reservations.getD 0 dRes).canceled
      = true ∧
    (rwStats (rwClear ⟨1, 100, 4, 2, [5], [⟨none, false, false, true⟩]⟩) 15).nextAllowedTime
      = 15 := by
  have h := claim_C4_clear ⟨1, 100, 4, 2, [5], [⟨none, false, false, true⟩]⟩
    ⟨1, 0, 100, 4, 2, 0, 5, [⟨none, false, false, true⟩]⟩
    ⟨1, 1, 100, 4, 2, 5, [⟨none, false, false, true⟩]⟩ 10 15
    (by decide) (by decide) (by decide) (by decide)
  exact ⟨h.2.2.2.2.2.2.2.2.2.2.1, h.2.2.2.2.2.2.2.2.2.2.2.1, h.2.2.2.2.2.2.2.2.2.2.2.2,
    (h.2.2.2.2.1 0 (by decide) (by decide)).1, h.2.2.2.2.2.2.2.1⟩

end GoLimit
